import Mathlib

/-!
Verification of the `sind` swarm-in-docker cluster bootstrap orchestrator.

The Go source is shallowly embedded: every call to the docker daemon is
resolved by an explicit oracle environment (`CreateEnv`, `PushEnv`,
`ExecEnv`) standing for the external container runtime, and each operation
returns, next to its `Except`-style result, the list of external calls
(`Event`s) it issued, in program order.  Concurrent fan-out phases
(`errgroup` in the source) are linearised in spawn order; the claims proved
below only concern the multiset of calls issued by a phase and the ordering
between phases, which every interleaving of the sibling tasks shares.
-/

namespace Sind

/-- Error message constants of create.go. -/
def ErrEmptyClusterName : String := "empty cluster name"

/-- See `ErrEmptyClusterName`. -/
def ErrEmptyNetworkName : String := "empty network name"

/-- See `ErrEmptyClusterName`. -/
def ErrInvalidManagersCount : String := "invalid manager count, must be >= 1"

/-- See `ErrEmptyClusterName`. -/
def ErrInvalidWorkerCount : String := "invalid worker count, must be >= 0"

/-- See `ErrEmptyClusterName`. -/
def ErrPrimaryNodeNotBound : String := "primary node is not exposing docker daemon port"

/-- Model of `DefaultNodeImageName` of create.go. -/
def DefaultNodeImageName : String := "docker:18.09-dind"

/-- Model of `defaultSwarmListenAddr` of create.go. -/
def defaultSwarmListenAddr : String := "0.0.0.0:2377"

/-- Node-role label values.  Modelled from the spec: the constants
`primaryNode`, `managerNode`, `workerNode` (and the label keys) live in a
file of the repository that is not part of the provided sources; the spec's
NodeRole vocabulary {Primary, Manager, Worker} fixes three pairwise
distinct role tags, which is all the development relies on. -/
def primaryNode : String := "primary"

/-- See `primaryNode`. -/
def managerNode : String := "manager"

/-- See `primaryNode`. -/
def workerNode : String := "worker"

/-- Model of `CreateClusterParams` of create.go.  Go `int` is modelled as `Int`. -/
structure CreateClusterParams where
  ClusterName : String
  NetworkName : String
  NetworkSubnet : String
  Managers : Int
  Workers : Int
  ImageName : String
  PullImage : Bool
  PortBindings : List String
deriving Repr

/-- Model of `(*CreateClusterParams).validate` of create.go: first failing check
wins; `none` means the parameters are valid. -/
def validate (p : CreateClusterParams) : Option String :=
  if p.ClusterName = "" then some ErrEmptyClusterName
  else if p.NetworkName = "" then some ErrEmptyNetworkName
  else if p.Managers < 1 then some ErrInvalidManagersCount
  else if p.Workers < 0 then some ErrInvalidWorkerCount
  else none

/-- Model of `(*CreateClusterParams).managersToRun` of create.go. -/
def managersToRun (p : CreateClusterParams) : Int := p.Managers - 1

/-- Model of `(*CreateClusterParams).imageName` of create.go. -/
def imageNameOf (p : CreateClusterParams) : String :=
  if p.ImageName ≠ "" then p.ImageName else DefaultNodeImageName

/-! ### fmt.Sprintf model for `%d` patterns

`nameGenerator.generateName` formats its pattern with `fmt.Sprintf` and a
single integer argument.  `fmtD` models Go's verb processing restricted to
the `%d` verb and the `%%` escape (the only directives reachable from the
patterns the source builds, as long as the user-supplied cluster name uses
no other verb): the first `%d` receives the argument, any further `%d`
renders as `%!d(MISSING)`, and an unused argument appends
`%!(EXTRA int=n)`, exactly as `fmt.Sprintf` does. -/

/-- Verb scan: processes the pattern characters; the boolean tracks whether
the single argument has already been consumed.  Only the `%d` verb and the
`%%` escape are modelled (the only directives the source's patterns contain
when the cluster name itself is directive-free); a `%` followed by another
character is kept literally, and a trailing lone `%` renders as Go's
`%!(NOVERB)`. -/
def fmtD : List Char → Nat → Bool → List Char × Bool
  | [], _, used => ([], used)
  | c :: rest, n, used =>
    if c = '%' then
      match rest with
      | [] => (("%!(NOVERB)").data, used)
      | 'd' :: rest2 =>
        ((if used then ("%!d(MISSING)").data else (Nat.repr n).data) ++ (fmtD rest2 n true).1,
         (fmtD rest2 n true).2)
      | '%' :: rest2 => ('%' :: (fmtD rest2 n used).1, (fmtD rest2 n used).2)
      | c2 :: rest2 => (c :: c2 :: (fmtD rest2 n used).1, (fmtD rest2 n used).2)
    else (c :: (fmtD rest n used).1, (fmtD rest n used).2)

/-- Model of `fmt.Sprintf pattern n` for a single `int` argument. -/
def sprintfD (pattern : String) (n : Nat) : String :=
  if (fmtD pattern.data n false).2 then String.mk (fmtD pattern.data n false).1
  else String.mk (fmtD pattern.data n false).1 ++ "%!(EXTRA int=" ++ Nat.repr n ++ ")"

/-- Model of `nameGenerator` of create.go.  The index is a Go `int`; both generators
the source builds start it at 0 and only ever increment it, so it is
modelled as `Nat`. -/
structure nameGenerator where
  pattern : String
  index : Nat
deriving Repr

/-- Model of `(*nameGenerator).generateName` of create.go: format the pattern with
the current index, then increment the index. -/
def generateName (g : nameGenerator) : String × nameGenerator :=
  (sprintfD g.pattern g.index, { g with index := g.index + 1 })

/-- The successive names a generator produces (the source generates names
sequentially, one per loop iteration, before spawning each task). -/
def namesSeq (g : nameGenerator) : Nat → List String
  | 0 => []
  | k + 1 => (generateName g).1 :: namesSeq (generateName g).2 k

/-! ### Swarm node model (docker API types used by countNodesPerRole) -/

/-- Model of `swarm.NodeState` values relevant to the orchestrator. -/
inductive NodeState
  | ready
  | down
  | unknown
  | disconnected
deriving DecidableEq, Repr

/-- Model of `swarm.NodeRole`. -/
inductive NodeRole
  | manager
  | worker
deriving DecidableEq, Repr

/-- A `swarm.Node` restricted to the two fields `countNodesPerRole`
reads: `node.Status.State` and `node.Spec.Role`. -/
structure Node where
  state : NodeState
  role : NodeRole
deriving DecidableEq, Repr

/-- Model of `countNodesPerRole` of create.go: skip every node that is not ready,
then tally by role.  Counts are Go `int`s. -/
def countNodesPerRole (nodes : List Node) : Int × Int :=
  match nodes with
  | [] => (0, 0)
  | node :: rest =>
    let c := countNodesPerRole rest
    if node.state ≠ NodeState.ready then c
    else
      match node.role with
      | NodeRole.manager => (c.1 + 1, c.2)
      | NodeRole.worker => (c.1, c.2 + 1)

/-! ### External calls and the trace monad -/

/-- One call issued to the external container runtime (or, for
`removeFile`, to the local filesystem), recorded in program order. -/
inductive Event
  | imageList (ref : String)
  | imagePull (ref : String)
  | networkCreate (name : String)
  | containerCreate (name : String) (role : String)
  | containerStart (cid : String)
  | containerInspect (cid : String)
  | ping
  | nodeList
  | swarmInit
  | swarmInspect
  | execCreate (cid : String) (cmd : List String)
  | execStart (execId : String)
  | imageSave (refs : List String)
  | containerList
  | copyToContainer (cid : String) (path : String)
  | removeFile (path : String)
deriving DecidableEq, Repr

/-- Result of a fallible operation together with the external calls it
issued, in order. -/
abbrev TraceM (α : Type) : Type := Except String α × List Event

/-- Successful pure result, no external call. -/
def retE {α : Type} (a : α) : TraceM α := (Except.ok a, [])

/-- Failure, no external call. -/
def errE {α : Type} (e : String) : TraceM α := (Except.error e, [])

/-- Sequencing: on failure the remaining program does not run, but the
calls already issued stay in the trace. -/
def bindE {α β : Type} (x : TraceM α) (f : α → TraceM β) : TraceM β :=
  match x.1 with
  | Except.error e => (Except.error e, x.2)
  | Except.ok a => ((f a).1, x.2 ++ (f a).2)

/-- Model of `fmt.Errorf("<pre>: %v", err)` wrapping of a failed step. -/
def wrapE {α : Type} (pre : String) (x : TraceM α) : TraceM α :=
  match x.1 with
  | Except.error e => (Except.error (pre ++ ": " ++ e), x.2)
  | Except.ok a => (Except.ok a, x.2)

/-! ### Oracle environments for the external container runtime -/

/-- Result of `url.Parse` on the host client's daemon address, restricted
to the two fields `swarmHost` reads. -/
structure URLInfo where
  scheme : String
  host : String
deriving Repr

/-- A `types.ContainerJSON` restricted to the field `swarmPort` reads:
the `"2375/tcp"` entry of `NetworkSettings.Ports` (`none` when the key is
absent), each element being one binding's `HostPort`. -/
structure ContainerInfo where
  ports2375 : Option (List String)
deriving Repr

/-- Model of `swarm.JoinTokens` as returned by `SwarmInspect`. -/
structure JoinTokens where
  Manager : String
  Worker : String
deriving DecidableEq, Repr

/-- Oracle for `ContainerExecCreate` / `ContainerExecStart`.
`cmdExitCode` is the eventual exit status of the command the exec runs
inside the container: it is a fact of the external world, available here so
that theorems can relate the operation's result to it.  The source never
queries it (no `ContainerExecInspect` / attach-wait call exists). -/
structure ExecEnv where
  execCreateRes : String → List String → Except String String
  execStartRes : String → Except String Unit
  cmdExitCode : String → Int

/-- Oracle environment for one `CreateCluster` run: the response of the
external runtime to each call the orchestrator can issue.  The two pollers
consume tick schedules: the query result observed at each ticker firing, the
caller's context firing (with `ctxErr`, its `ctx.Err()`) once the list is
exhausted.  Every terminating execution of the source corresponds to a
finite schedule. -/
structure CreateEnv where
  newHostClientErr : Option String
  imageListRes : Except String Nat
  imagePullRes : Except String Unit
  pullDrainRes : Except String Unit
  networkCreateRes : Except String String
  parsePortsRes : Except String Unit
  containerCreateRes : String → Except String String
  containerStartRes : String → Except String Unit
  inspectRes : String → Except String ContainerInfo
  daemonHostStr : String
  parseURLRes : Except String URLInfo
  newSwarmClientErr : Option String
  daemonTicks : List (Except String Unit)
  clusterTicks : List (Except String (List Node))
  ctxErr : String
  swarmInitRes : Except String Unit
  swarmInspectRes : Except String JoinTokens
  exec : ExecEnv

/-! ### Result record -/

/-- Model of `Swarm` endpoint of the created cluster. -/
structure Swarm where
  Host : String
  Port : String
deriving Repr

/-- Model of `Docker` host endpoint record. -/
structure Docker where
  Host : String
deriving Repr

/-- Model of `Cluster` result record returned by `CreateCluster`. -/
structure Cluster where
  Name : String
  Cluster : Swarm
  Host : Docker
deriving Repr

/-! ### create.go operations -/

/-- Model of `imageAlreadyExist` of create.go: one `ImageList` call (with a
reference filter); any query error is treated as "image absent".  The
oracle returns the length of the image list. -/
def imageAlreadyExist (env : CreateEnv) (imageName : String) : Bool × List Event :=
  (match env.imageListRes with
   | Except.error _ => false
   | Except.ok len => decide (0 < len),
   [Event.imageList imageName])

/-- The `ImagePull` branch of `CreateCluster`: the pull call followed by
draining the progress stream (`io.Copy` to `ioutil.Discard`); either step
failing aborts with the same wrapping. -/
def pullStep (env : CreateEnv) (img : String) : TraceM Unit :=
  match env.imagePullRes with
  | Except.error e =>
    (Except.error ("unable to pull the " ++ img ++ " image: " ++ e), [Event.imagePull img])
  | Except.ok _ =>
    match env.pullDrainRes with
    | Except.error e =>
      (Except.error ("unable to pull the " ++ img ++ " image: " ++ e), [Event.imagePull img])
    | Except.ok _ => (Except.ok (), [Event.imagePull img])

/-- Model of `waitDaemonReady` of create.go: on each ticker firing issue a `Ping`;
a failed ping is ignored and the loop continues; a successful ping returns
`nil`; the context firing returns `ctx.Err()` unchanged.  (The deferred
`ticker.Stop()` has no observable effect.) -/
def waitDaemonReady (ticks : List (Except String Unit)) (ctxErr : String) : TraceM Unit :=
  match ticks with
  | [] => (Except.error ctxErr, [])
  | t :: rest =>
    match t with
    | Except.error _ =>
      ((waitDaemonReady rest ctxErr).1, Event.ping :: (waitDaemonReady rest ctxErr).2)
    | Except.ok _ => (Except.ok (), [Event.ping])

/-- Model of `waitClusterReady` of create.go: on each ticker firing issue a
`NodeList`; a failed query is ignored; on success the ready nodes are
tallied by role and the loop continues unless both counts match the
request; the context firing returns `ctx.Err()` unchanged. -/
def waitClusterReady (ticks : List (Except String (List Node))) (ctxErr : String)
    (expectedManagers expectedWorkers : Int) : TraceM Unit :=
  match ticks with
  | [] => (Except.error ctxErr, [])
  | t :: rest =>
    match t with
    | Except.error _ =>
      ((waitClusterReady rest ctxErr expectedManagers expectedWorkers).1,
       Event.nodeList :: (waitClusterReady rest ctxErr expectedManagers expectedWorkers).2)
    | Except.ok nodes =>
      if (countNodesPerRole nodes).1 ≠ expectedManagers then
        ((waitClusterReady rest ctxErr expectedManagers expectedWorkers).1,
         Event.nodeList :: (waitClusterReady rest ctxErr expectedManagers expectedWorkers).2)
      else if (countNodesPerRole nodes).2 ≠ expectedWorkers then
        ((waitClusterReady rest ctxErr expectedManagers expectedWorkers).1,
         Event.nodeList :: (waitClusterReady rest ctxErr expectedManagers expectedWorkers).2)
      else (Except.ok (), [Event.nodeList])

/-- Model of `execContainer` of create.go: `ContainerExecCreate` followed by
`ContainerExecStart` (with `ExecStartCheck{}`); the result is the transport
result of those two API calls.  No attach/wait or `ContainerExecInspect`
call follows, so the command's own exit status is never observed. -/
def execContainer (env : ExecEnv) (cid : String) (cmd : List String) : TraceM Unit :=
  match env.execCreateRes cid cmd with
  | Except.error e => (Except.error e, [Event.execCreate cid cmd])
  | Except.ok eid =>
    match env.execStartRes eid with
    | Except.error e => (Except.error e, [Event.execCreate cid cmd, Event.execStart eid])
    | Except.ok _ => (Except.ok (), [Event.execCreate cid cmd, Event.execStart eid])

/-- Model of `runContainer` of create.go: `ContainerCreate` then `ContainerStart`.
The oracle resolves creation by container name; the config arguments only
feed the recorded role label. -/
def runContainer (env : CreateEnv) (name role : String) : TraceM String :=
  match env.containerCreateRes name with
  | Except.error e => (Except.error e, [Event.containerCreate name role])
  | Except.ok cid =>
    match env.containerStartRes cid with
    | Except.error e => (Except.error e, [Event.containerCreate name role, Event.containerStart cid])
    | Except.ok _ => (Except.ok cid, [Event.containerCreate name role, Event.containerStart cid])

/-- The loop body of `runContainers` of create.go: names are generated
sequentially (one `generateName` per iteration, before the task is
spawned); the tasks run under an `errgroup` with a shared cancellable
context, so the first failure wins and later siblings are cancelled.  The
linearisation runs the tasks in spawn order and stops at the first
failure. -/
def runContainersGo (env : CreateEnv) (remaining : Nat) (role : String)
    (gen : nameGenerator) : TraceM (List String) :=
  match remaining with
  | 0 => retE []
  | r + 1 =>
    let one := runContainer env (generateName gen).1 role
    match one.1 with
    | Except.error e => (Except.error e, one.2)
    | Except.ok cid =>
      let rest := runContainersGo env r role (generateName gen).2
      match rest.1 with
      | Except.error e => (Except.error e, one.2 ++ rest.2)
      | Except.ok cids => (Except.ok (cid :: cids), one.2 ++ rest.2)

/-- Model of `runContainers` of create.go.  `totalToCreate` is a Go `int`; the
`for i := 0; i < totalToCreate` loop runs `max totalToCreate 0`
iterations. -/
def runContainers (env : CreateEnv) (totalToCreate : Int) (role : String)
    (gen : nameGenerator) : TraceM (List String) :=
  runContainersGo env totalToCreate.toNat role gen

/-- Model of `swarmPort` of create.go: the first host binding of port
`"2375/tcp"` of the primary container. -/
def swarmPort (info : ContainerInfo) : Except String String :=
  match info.ports2375 with
  | none => Except.error ErrPrimaryNodeNotBound
  | some [] => Except.error ErrPrimaryNodeNotBound
  | some (p :: _) => Except.ok p

/-- Model of `swarmHost` of create.go: parse the host client's daemon address;
`unix` schemes map to `localhost`, otherwise the part of the URL host
before the first `:`. -/
def swarmHost (env : CreateEnv) : Except String String :=
  match env.parseURLRes with
  | Except.error e => Except.error e
  | Except.ok u =>
    if u.scheme = "unix" then Except.ok "localhost"
    else Except.ok ((u.host.splitOn ":").headD "")

/-- Model of `net.JoinHostPort`. -/
def joinHostPort (host port : String) : String :=
  if host.contains ':' then "[" ++ host ++ "]:" ++ port else host ++ ":" ++ port

/-- The `docker swarm join` command line dispatched to each secondary
node. -/
def joinCmd (token addr : String) : List String :=
  ["docker", "swarm", "join", "--token", token, addr]

/-- An `errgroup.Group` fan-out of `execContainer` jobs without a shared
cancellable context (as in the join fan-out and the image-load fan-out):
every job runs regardless of sibling failures and `Wait` reports one
failure.  The linearisation runs the jobs in spawn order and reports the
first failing one. -/
def runAllExec (env : ExecEnv) (jobs : List (String × List String)) : TraceM Unit :=
  match jobs with
  | [] => retE ()
  | job :: rest =>
    let one := execContainer env job.1 job.2
    let rst := runAllExec env rest
    (match one.1 with
     | Except.error e => Except.error e
     | Except.ok _ => rst.1,
     one.2 ++ rst.2)

/-- What the provisioning phase of `CreateCluster` hands to the swarm
bootstrap phase. -/
structure ProvisionOut where
  primaryCID : String
  swarmPortV : String
  swarmHostV : String
  managerCIDs : List String
  workerCIDs : List String

/-- Lines 110-229 of create.go: image availability check and optional
pull, network creation, port-spec parsing, sequential creation of the
primary node (manager name index 0), inspection of the primary, resolution
of the exposed daemon port and host, then the concurrent creation of the
remaining `Managers - 1` manager nodes and `Workers` worker nodes. -/
def provisionPhase (env : CreateEnv) (params : CreateClusterParams) : TraceM ProvisionOut :=
  let img := imageNameOf params
  let imageExist := (imageAlreadyExist env img).1
  bindE ((Except.ok (), (imageAlreadyExist env img).2) : TraceM Unit) fun _ =>
  bindE (if params.PullImage || !imageExist then pullStep env img else retE ()) fun _ =>
  bindE (wrapE "unable to create cluster network"
    (env.networkCreateRes, [Event.networkCreate params.NetworkName])) fun _netID =>
  bindE (wrapE "unable to define port bindings" (env.parsePortsRes, [])) fun _ =>
  let managerGen : nameGenerator := { pattern := params.ClusterName ++ "-manager-%d", index := 0 }
  let workerGen : nameGenerator := { pattern := params.ClusterName ++ "-worker-%d", index := 0 }
  let primaryNodeName := (generateName managerGen).1
  let managerGen1 := (generateName managerGen).2
  bindE (wrapE "unable to create the primary node"
    (runContainer env primaryNodeName primaryNode)) fun primaryCID =>
  bindE (wrapE "unable to get the primary node informations"
    (env.inspectRes primaryCID, [Event.containerInspect primaryCID])) fun info =>
  bindE (wrapE "unable to get the remote docker daemon port" (swarmPort info, [])) fun port =>
  bindE (wrapE "unable to get the remote docker daemon host" (swarmHost env, [])) fun host =>
  bindE (wrapE "unable to create manager nodes"
    (runContainers env (managersToRun params) managerNode managerGen1)) fun managerCIDs =>
  bindE (wrapE "unable to create worker nodes"
    (runContainers env params.Workers workerNode workerGen)) fun workerCIDs =>
  retE { primaryCID := primaryCID, swarmPortV := port, swarmHostV := host,
         managerCIDs := managerCIDs, workerCIDs := workerCIDs }

/-- Lines 231-311 of create.go: swarm client construction, the daemon
readiness wait, `SwarmInit`, `SwarmInspect` (join-token retrieval), the
concurrent join fan-out (manager nodes with the manager token, worker
nodes with the worker token, all addressed to the primary's internal
`<cid[0:12]>:2377` address), the cluster convergence wait, and the result
record.  (Go's `[0:12]` slice is modelled with `String.take`; it would
panic on an ID shorter than 12 bytes, which docker IDs never are.) -/
def swarmPhase (env : CreateEnv) (params : CreateClusterParams) (prov : ProvisionOut) :
    TraceM Cluster :=
  match env.newSwarmClientErr with
  | some e => errE ("unable to create swarm client: " ++ e)
  | none =>
    bindE (wrapE "unable to connect to the swarm cluster"
      (waitDaemonReady env.daemonTicks env.ctxErr)) fun _ =>
    bindE (wrapE "unable to init the swarm" (env.swarmInitRes, [Event.swarmInit])) fun _ =>
    bindE (wrapE "unable to collect join tokens"
      (env.swarmInspectRes, [Event.swarmInspect])) fun tokens =>
    let managerAddr := joinHostPort (prov.primaryCID.take 12) "2377"
    bindE (wrapE "unable to build the cluster"
      (runAllExec env.exec
        (prov.managerCIDs.map (fun cid => (cid, joinCmd tokens.Manager managerAddr)) ++
         prov.workerCIDs.map (fun cid => (cid, joinCmd tokens.Worker managerAddr))))) fun _ =>
    bindE (wrapE "unable to check swarm cluste"
      (waitClusterReady env.clusterTicks env.ctxErr params.Managers params.Workers)) fun _ =>
    retE { Name := params.ClusterName,
           Cluster := { Host := prov.swarmHostV, Port := prov.swarmPortV },
           Host := { Host := env.daemonHostStr } }

/-- Model of `CreateCluster` of create.go: validation, host client construction,
then the provisioning phase and the swarm bootstrap phase. -/
def CreateCluster (env : CreateEnv) (params : CreateClusterParams) : TraceM Cluster :=
  match validate params with
  | some e => errE ("invalid configuration: " ++ e)
  | none =>
    match env.newHostClientErr with
    | some e => errE ("unable to create docker client: " ++ e)
    | none =>
      bindE (provisionPhase env params) fun prov =>
      swarmPhase env params prov

/-! ### push.go: image distribution -/

/-- Oracle environment for one `PushImage` run.  The temp-file oracles
return the paths the OS assigns; the two `io.Copy` oracles return the byte
count copied together with an optional failure (Go reports both). -/
structure PushEnv where
  hostClientErr : Option String
  tempImgFile : Except String String
  imageSaveRes : Except String Unit
  saveCopyBytes : Int
  saveCopyErr : Option String
  seekErr : Option String
  tempTarFile : Except String String
  statRes : Except String Int
  writeHeaderErr : Option String
  tarCopyBytes : Int
  tarCopyErr : Option String
  tarCloseErr : Option String
  containerListRes : Except String (List String)
  openFileRes : String → Option String
  copyRes : String → Option String
  exec : ExecEnv

/-- Strip trailing path separators (first step of `filepath.Base`). -/
def stripTrailSlash (l : List Char) : List Char :=
  (l.reverse.dropWhile (fun c => c = '/')).reverse

/-- The characters after the last `/` (second step of `filepath.Base`). -/
def lastComponent (l : List Char) : List Char :=
  (l.reverse.takeWhile (fun c => c ≠ '/')).reverse

/-- Model of `filepath.Base`: empty path gives `.`; trailing slashes are stripped;
an all-slash path gives `/`; otherwise the part after the last slash. -/
def filepathBase (path : String) : String :=
  if path = "" then "."
  else
    let trimmed := stripTrailSlash path.data
    if trimmed = [] then "/"
    else String.mk (lastComponent trimmed)

/-- Model of `filepath.Join("/", base)` for a base name already produced by
`filepath.Base` (so the only cleaning `Join` performs is collapsing `.`
and `/`). -/
def joinRoot (base : String) : String :=
  if base = "." ∨ base = "/" then "/" else "/" ++ base

/-- Lines 104-152 of push.go, after the images temp file was created:
`ImageSave`, stream the result into the temp file, seek back, create the
tar temp file, stat, write the single tar header, stream the images file
into the tar writer, close it, and return the in-container path and the
archive path.  (The tar-file `Close` is deferred and unobservable.) -/
def prepareArchiveBody (env : PushEnv) (refs : List String) (imgsPath : String) :
    TraceM (String × String) :=
  match env.imageSaveRes with
  | Except.error e =>
    (Except.error ("unable to save the images to disk: " ++ e), [Event.imageSave refs])
  | Except.ok _ =>
  match env.saveCopyErr with
  | some e =>
    (Except.error ("unable to save the images to disk (copied " ++
      toString env.saveCopyBytes ++ "): " ++ e), [Event.imageSave refs])
  | none =>
  match env.seekErr with
  | some e =>
    (Except.error ("unable to seek to the begining of the image file: " ++ e),
     [Event.imageSave refs])
  | none =>
  match env.tempTarFile with
  | Except.error e =>
    (Except.error ("unable to create the tar file: " ++ e), [Event.imageSave refs])
  | Except.ok tarPath =>
  match env.statRes with
  | Except.error e =>
    (Except.error ("unabel to collect images file info: " ++ e), [Event.imageSave refs])
  | Except.ok _size =>
  match env.writeHeaderErr with
  | some e =>
    (Except.error ("unable to write tar file header: " ++ e), [Event.imageSave refs])
  | none =>
  match env.tarCopyErr with
  | some e =>
    (Except.error ("unable to tar image files (wrote " ++
      toString env.tarCopyBytes ++ "): " ++ e), [Event.imageSave refs])
  | none =>
  match env.tarCloseErr with
  | some e =>
    (Except.error ("unable to close the tar writer properly (wrote " ++
      toString env.tarCopyBytes ++ "): " ++ e), [Event.imageSave refs])
  | none =>
    (Except.ok (joinRoot (filepathBase imgsPath), tarPath), [Event.imageSave refs])

/-- Model of `prepareArchive` of push.go.  The deferred cleanup closes and removes
the images temp file on every path past its creation; the tar temp file
(the returned archive path) is left for the caller (`PushImage`) to
remove. -/
def prepareArchive (env : PushEnv) (refs : List String) : TraceM (String × String) :=
  match env.tempImgFile with
  | Except.error e => (Except.error ("unable to create the image file: " ++ e), [])
  | Except.ok imgsPath =>
    ((prepareArchiveBody env refs imgsPath).1,
     (prepareArchiveBody env refs imgsPath).2 ++ [Event.removeFile imgsPath])

/-- Model of `copyToContainer` of push.go: open the archive on the host, then one
`CopyToContainer` call targeting the container's root. -/
def copyToContainer (env : PushEnv) (filePath cid : String) : TraceM Unit :=
  match env.openFileRes filePath with
  | some e => (Except.error ("unable to open file to deploy: " ++ e), [])
  | none =>
    match env.copyRes cid with
    | some e =>
      (Except.error ("unable to copy the image to container " ++ cid ++ ": " ++ e),
       [Event.copyToContainer cid filePath])
    | none => (Except.ok (), [Event.copyToContainer cid filePath])

/-- The copy fan-out of `PushImage`: an `errgroup.Group` without shared
cancellable context, one `copyToContainer` task per container; every task
runs and `Wait` reports one failure (the linearisation reports the first,
in spawn order). -/
def copyAll (env : PushEnv) (filePath : String) (cids : List String) : TraceM Unit :=
  match cids with
  | [] => retE ()
  | cid :: rest =>
    let one := copyToContainer env filePath cid
    let rst := copyAll env filePath rest
    (match one.1 with
     | Except.error e => Except.error e
     | Except.ok _ => rst.1,
     one.2 ++ rst.2)

/-- The `docker load -i <path>` command executed inside every container. -/
def loadCmd (path : String) : List String := ["docker", "load", "-i", path]

/-- Lines 36-75 of push.go: enumerate the cluster's containers
(`Cluster.ContainerList`, a label-filtered listing whose body lives in a
file outside the provided sources; its outcome is the `containerListRes`
oracle), fan out the archive copy to every container, and only if every
copy succeeded fan out the `docker load` exec to every container. -/
def pushBody (env : PushEnv) (imageContainerPath archivePath : String) : TraceM Unit :=
  match env.containerListRes with
  | Except.error e =>
    (Except.error ("unable to get container list " ++ e), [Event.containerList])
  | Except.ok cids =>
    let cpy := copyAll env archivePath cids
    match cpy.1 with
    | Except.error e =>
      (Except.error ("unable to deploy the image to host: " ++ e),
       Event.containerList :: cpy.2)
    | Except.ok _ =>
      let lds := runAllExec env.exec (cids.map (fun cid => (cid, loadCmd imageContainerPath)))
      match lds.1 with
      | Except.error e =>
        (Except.error ("unable to load the image on the host: " ++ e),
         Event.containerList :: (cpy.2 ++ lds.2))
      | Except.ok _ => (Except.ok (), Event.containerList :: (cpy.2 ++ lds.2))

/-- Model of `(*Cluster).PushImage` of push.go: host client, archive preparation,
then `pushBody`; `defer os.Remove(archivePath)` removes the local archive
on every exit path past a successful preparation. -/
def PushImage (env : PushEnv) (refs : List String) : TraceM Unit :=
  match env.hostClientErr with
  | some e => errE ("unable to get host client: " ++ e)
  | none =>
    let prep := prepareArchive env refs
    match prep.1 with
    | Except.error e => (Except.error ("unable to prepare the archive: " ++ e), prep.2)
    | Except.ok paths =>
      let body := pushBody env paths.1 paths.2
      (body.1, prep.2 ++ body.2 ++ [Event.removeFile paths.2])

/-! ### Derived notions used by the statements -/

/-- Decimal digit value of a digit character. -/
def decodeDigit (c : Char) : Nat := c.toNat - 48

/-- Read a decimal digit string back into a number (used to invert
`Nat.repr`). -/
def decodeDec (init : Nat) (cs : List Char) : Nat :=
  cs.foldl (fun a c => a * 10 + decodeDigit c) init

/-- Event classifiers. -/
def isSwarmInitEv : Event → Bool
  | Event.swarmInit => true
  | _ => false

/-- See `isSwarmInitEv`. -/
def isSwarmInspectEv : Event → Bool
  | Event.swarmInspect => true
  | _ => false

/-- A `docker swarm join` exec dispatch. -/
def isJoinExecEv : Event → Bool
  | Event.execCreate _ ("docker" :: "swarm" :: "join" :: _) => true
  | _ => false

/-- A `docker load` exec dispatch. -/
def isLoadExecEv : Event → Bool
  | Event.execCreate _ ("docker" :: "load" :: _) => true
  | _ => false

/-- An exec dispatch of exactly the given command line. -/
def isExecCmdEv (cmd : List String) : Event → Bool
  | Event.execCreate _ c => decide (c = cmd)
  | _ => false

/-- A container creation carrying the given role label. -/
def isCreateRoleEv (role : String) : Event → Bool
  | Event.containerCreate _ r => decide (r = role)
  | _ => false

/-- An image pull. -/
def isPullEv : Event → Bool
  | Event.imagePull _ => true
  | _ => false

/-- The event shapes the provisioning phase can issue. -/
def provisionEv : Event → Bool
  | Event.imageList _ => true
  | Event.imagePull _ => true
  | Event.networkCreate _ => true
  | Event.containerCreate _ _ => true
  | Event.containerStart _ => true
  | Event.containerInspect _ => true
  | _ => false

/-- Model of `noneUntil p stop evs` holds when no event satisfying `p` occurs
strictly before the first event satisfying `stop` (vacuously when no
`stop` event occurs but no `p` event does either). -/
def noneUntil (p stop : Event → Bool) : List Event → Bool
  | [] => true
  | e :: rest => if stop e then true else if p e then false else noneUntil p stop rest

/-- The primary node's name as `CreateCluster` generates it: index 0 of
the manager-name generator. -/
def primaryNodeNameOf (c : String) : String :=
  (generateName { pattern := c ++ "-manager-%d", index := 0 }).1

/-- The names of the `k` non-primary managers: the manager-name generator
continued after the primary consumed index 0. -/
def otherManagerNames (c : String) (k : Nat) : List String :=
  namesSeq (generateName { pattern := c ++ "-manager-%d", index := 0 }).2 k

/-- The names of the `w` workers: a fresh worker-name generator starting
at index 0. -/
def workerNames (c : String) (w : Nat) : List String :=
  namesSeq { pattern := c ++ "-worker-%d", index := 0 } w

/-- All generated node names of one `CreateCluster` call. -/
def allNodeNames (c : String) (k w : Nat) : List String :=
  primaryNodeNameOf c :: (otherManagerNames c k ++ workerNames c w)

/-- The number of listed members in the ready state with the given role
(the spec's description of convergence counting). -/
def readyCount (r : NodeRole) (nodes : List Node) : Nat :=
  List.countP (fun nd => decide (nd.state = NodeState.ready ∧ nd.role = r)) nodes

/-! ### Concrete environments used by witnesses and counterexamples -/

/-- An exec oracle where every API call succeeds and every command
exits 0. -/
def allOkExecEnv : ExecEnv where
  execCreateRes := fun cid _ => Except.ok ("exec-" ++ cid)
  execStartRes := fun _ => Except.ok ()
  cmdExitCode := fun _ => 0

/-- An exec oracle where both API calls succeed but the command run by
the exec exits with status 1. -/
def failCmdExecEnv : ExecEnv where
  execCreateRes := fun _ _ => Except.ok "e1"
  execStartRes := fun _ => Except.ok ()
  cmdExitCode := fun _ => 1

/-- The join tokens handed out by `okCreateEnv`. -/
def toks32 : JoinTokens where
  Manager := "SWMTKN-m"
  Worker := "SWMTKN-w"

/-- The result record of a successful run over `okCreateEnv`. -/
def cluster32 : Cluster where
  Name := "c"
  Cluster := { Host := "localhost", Port := "32771" }
  Host := { Host := "unix:///var/run/docker.sock" }

/-- A membership listing with 3 ready managers and 2 ready workers. -/
def readyNodes32 : List Node :=
  [{ state := NodeState.ready, role := NodeRole.manager },
   { state := NodeState.ready, role := NodeRole.manager },
   { state := NodeState.ready, role := NodeRole.manager },
   { state := NodeState.ready, role := NodeRole.worker },
   { state := NodeState.ready, role := NodeRole.worker }]

/-- A runtime oracle for which every call of a `CreateCluster` run
succeeds (sized for a 3-manager, 2-worker request). -/
def okCreateEnv : CreateEnv where
  newHostClientErr := none
  imageListRes := Except.ok 1
  imagePullRes := Except.ok ()
  pullDrainRes := Except.ok ()
  networkCreateRes := Except.ok "netid"
  parsePortsRes := Except.ok ()
  containerCreateRes := fun name => Except.ok ("cid-" ++ name)
  containerStartRes := fun _ => Except.ok ()
  inspectRes := fun _ => Except.ok { ports2375 := some ["32771"] }
  daemonHostStr := "unix:///var/run/docker.sock"
  parseURLRes := Except.ok { scheme := "unix", host := "" }
  newSwarmClientErr := none
  daemonTicks := [Except.ok ()]
  clusterTicks := [Except.ok readyNodes32]
  ctxErr := "context deadline exceeded"
  swarmInitRes := Except.ok ()
  swarmInspectRes := Except.ok toks32
  exec := allOkExecEnv

/-- Model of `okCreateEnv` with a failing `ImageList` query. -/
def listFailEnv : CreateEnv :=
  { okCreateEnv with imageListRes := Except.error "docker daemon unavailable" }

/-- A valid 3-manager, 2-worker request. -/
def params32 : CreateClusterParams where
  ClusterName := "c"
  NetworkName := "n"
  NetworkSubnet := ""
  Managers := 3
  Workers := 2
  ImageName := ""
  PullImage := false
  PortBindings := []

/-- A request failing every validation check. -/
def paramsInvalid : CreateClusterParams :=
  { params32 with ClusterName := "", NetworkName := "", Managers := 0, Workers := -1 }

/-- A push oracle for which every call succeeds, over three containers. -/
def okPushEnv : PushEnv where
  hostClientErr := none
  tempImgFile := Except.ok "/tmp/img_sind1"
  imageSaveRes := Except.ok ()
  saveCopyBytes := 10
  saveCopyErr := none
  seekErr := none
  tempTarFile := Except.ok "/tmp/tar_img_sind1"
  statRes := Except.ok 10
  writeHeaderErr := none
  tarCopyBytes := 10
  tarCopyErr := none
  tarCloseErr := none
  containerListRes := Except.ok ["c1", "c2", "c3"]
  openFileRes := fun _ => none
  copyRes := fun _ => none
  exec := allOkExecEnv

/-- Model of `okPushEnv` with the copy into container `c2` failing. -/
def copyFailPushEnv : PushEnv :=
  { okPushEnv with copyRes := fun cid => if cid = "c2" then some "copy failed" else none }

/-! ## Lemmas about the trace monad -/

theorem bindE_eq_ok {α β : Type} {x : TraceM α} {f : α → TraceM β} {b : β} {evs : List Event} :
    bindE x f = (Except.ok b, evs) ↔
      ∃ a, x.1 = Except.ok a ∧ (f a).1 = Except.ok b ∧ x.2 ++ (f a).2 = evs := by
  cases hx : x.1 <;> simp [bindE, hx, Prod.ext_iff]

theorem bindE_snd_prefix {α β : Type} (x : TraceM α) (f : α → TraceM β) :
    ∃ t, (bindE x f).2 = x.2 ++ t := by
  cases hx : x.1 with
  | error e => exact ⟨[], by simp [bindE, hx]⟩
  | ok a => exact ⟨(f a).2, by simp [bindE, hx]⟩

theorem bindE_mem {α β : Type} {x : TraceM α} {f : α → TraceM β} {e : Event}
    (h : e ∈ (bindE x f).2) : e ∈ x.2 ∨ ∃ a, x.1 = Except.ok a ∧ e ∈ (f a).2 := by
  cases hx : x.1 with
  | error er => simp [bindE, hx] at h; exact Or.inl h
  | ok a =>
    simp [bindE, hx, List.mem_append] at h
    rcases h with h | h
    · exact Or.inl h
    · exact Or.inr ⟨a, rfl, h⟩

theorem wrapE_snd {α : Type} (pre : String) (x : TraceM α) : (wrapE pre x).2 = x.2 := by
  cases hx : x.1 <;> simp [wrapE, hx]

theorem wrapE_eq_ok {α : Type} {pre : String} {x : TraceM α} {a : α} {evs : List Event} :
    wrapE pre x = (Except.ok a, evs) ↔ x = (Except.ok a, evs) := by
  cases hx : x.1 <;> simp [wrapE, hx, Prod.ext_iff]

/-! ## C5: the pollers return the context error verbatim and swallow
query failures -/

theorem waitDaemonReady_error (ce : String) :
    ∀ (ticks : List (Except String Unit)) (e : String),
      (waitDaemonReady ticks ce).1 = Except.error e → e = ce := by
  intro ticks
  induction ticks with
  | nil => intro e h; simpa [waitDaemonReady] using h.symm
  | cons t rest ih =>
    intro e h
    cases t with
    | error qe => exact ih e (by simpa [waitDaemonReady] using h)
    | ok _ => simp [waitDaemonReady] at h

theorem waitClusterReady_error (ce : String) (em ew : Int) :
    ∀ (ticks : List (Except String (List Node))) (e : String),
      (waitClusterReady ticks ce em ew).1 = Except.error e → e = ce := by
  intro ticks
  induction ticks with
  | nil => intro e h; simpa [waitClusterReady] using h.symm
  | cons t rest ih =>
    intro e h
    cases t with
    | error qe => exact ih e (by simpa [waitClusterReady] using h)
    | ok nodes =>
      by_cases hm : (countNodesPerRole nodes).1 ≠ em
      · exact ih e (by simpa [waitClusterReady, hm] using h)
      · by_cases hw : (countNodesPerRole nodes).2 ≠ ew
        · exact ih e (by simpa [waitClusterReady, hm, hw] using h)
        · simp [waitClusterReady, hm, hw] at h

/-- C5: on both readiness pollers, an error returned to the caller is the
caller's own context error, verbatim; and a failed query on a tick is
never returned — the poller records the probe and continues with the
remaining schedule. -/
theorem pollers_ctx_error_and_swallow (dticks : List (Except String Unit))
    (cticks : List (Except String (List Node))) (ce : String) (em ew : Int) :
    (∀ e, (waitDaemonReady dticks ce).1 = Except.error e → e = ce) ∧
    (∀ e, (waitClusterReady cticks ce em ew).1 = Except.error e → e = ce) ∧
    (∀ (qe : String) (rest : List (Except String Unit)),
      waitDaemonReady (Except.error qe :: rest) ce =
        ((waitDaemonReady rest ce).1, Event.ping :: (waitDaemonReady rest ce).2)) ∧
    (∀ (qe : String) (rest : List (Except String (List Node))),
      waitClusterReady (Except.error qe :: rest) ce em ew =
        ((waitClusterReady rest ce em ew).1,
         Event.nodeList :: (waitClusterReady rest ce em ew).2)) := by
  refine ⟨waitDaemonReady_error ce dticks, waitClusterReady_error ce em ew cticks, ?_, ?_⟩
  · intro qe rest; simp [waitDaemonReady]
  · intro qe rest; simp [waitClusterReady]

/-- C5 witness: with an empty schedule the daemon poller returns exactly
the context error, and a failing first tick is swallowed. -/
theorem pollers_ctx_error_and_swallow_witness :
    ((waitDaemonReady [] "context deadline exceeded").1 =
        Except.error "context deadline exceeded" ∧
      "context deadline exceeded" = "context deadline exceeded") ∧
    waitDaemonReady [Except.error "boom"] "context deadline exceeded" =
      ((waitDaemonReady [] "context deadline exceeded").1,
       Event.ping :: (waitDaemonReady [] "context deadline exceeded").2) := by
  refine ⟨⟨by rfl, ?_⟩, ?_⟩
  · exact (pollers_ctx_error_and_swallow [] [] "context deadline exceeded" 0 0).1
      "context deadline exceeded" (by rfl)
  · exact (pollers_ctx_error_and_swallow [] [] "context deadline exceeded" 0 0).2.2.1
      "boom" []

/-! ## C4: the convergence predicate -/

theorem countNodesPerRole_eq_readyCounts (nodes : List Node) :
    countNodesPerRole nodes =
      ((readyCount NodeRole.manager nodes : Int), (readyCount NodeRole.worker nodes : Int)) := by
  induction nodes with
  | nil => simp [countNodesPerRole, readyCount]
  | cons nd rest ih =>
    cases hst : nd.state <;> cases hrl : nd.role <;>
      simp [countNodesPerRole, readyCount, List.countP_cons, hst, hrl, ih]

/-- C4: one membership listing makes the convergence poller succeed
exactly when the number of listed ready managers equals the requested
manager count and the number of listed ready workers equals the requested
worker count; nodes that are not ready count toward neither role. -/
theorem clusterReady_tick_iff_ready_counts (nodes : List Node) (ce : String) (em ew : Int) :
    (waitClusterReady [Except.ok nodes] ce em ew).1 = Except.ok () ↔
      ((readyCount NodeRole.manager nodes : Int) = em ∧
       (readyCount NodeRole.worker nodes : Int) = ew) := by
  simp only [waitClusterReady, countNodesPerRole_eq_readyCounts nodes]
  split_ifs with hm hw
  · simp [waitClusterReady, hm]
  · simp [waitClusterReady, hw]
  · simp only [ne_eq, not_not] at hm hw
    simp [hm, hw]

/-! ## C6: execContainer does not observe the command's outcome -/

/-- C6 counterexample: it is not the case that `execContainer` returns an
error whenever the command it started fails — with a world in which both
API calls succeed but the started command exits 1, it returns success. -/
theorem execContainer_ignores_exit_code_cex :
    ¬ (∀ (env : ExecEnv) (cid : String) (cmd : List String) (eid : String),
        env.execCreateRes cid cmd = Except.ok eid → env.cmdExitCode eid ≠ 0 →
        ∃ m, (execContainer env cid cmd).1 = Except.error m) := by
  intro h
  obtain ⟨m, hm⟩ :=
    h failCmdExecEnv "c1" (joinCmd "tok" "addr:2377") "e1" (by rfl) (by decide)
  simp [execContainer, failCmdExecEnv] at hm

/-- C6 amended: `execContainer` succeeds exactly when the exec-create and
exec-start API calls succeed, and its outcome is entirely independent of
the exit status of the command those calls started — a failed join or
image load inside the container is not reported. -/
theorem execContainer_result_characterization (env : ExecEnv) (cid : String)
    (cmd : List String) :
    ((execContainer env cid cmd).1 = Except.ok () ↔
      ∃ eid, env.execCreateRes cid cmd = Except.ok eid ∧
        env.execStartRes eid = Except.ok ()) ∧
    ∀ exitF : String → Int,
      execContainer { env with cmdExitCode := exitF } cid cmd = execContainer env cid cmd := by
  constructor
  · cases hc : env.execCreateRes cid cmd with
    | error e => simp [execContainer, hc]
    | ok eid =>
      cases hs : env.execStartRes eid with
      | error e => simp [execContainer, hc, hs]
      | ok _ => simp [execContainer, hc, hs]
  · intro exitF
    cases hc : env.execCreateRes cid cmd with
    | error e => simp [execContainer, hc]
    | ok eid =>
      cases hs : env.execStartRes eid with
      | error e => simp [execContainer, hc, hs]
      | ok _ => simp [execContainer, hc, hs]

/-! ## C1: validation fails fast, with the matching reason and no side
effect -/

/-- C1: whenever the cluster name is empty, the network name is empty, the
manager count is below 1, or the worker count is negative, `CreateCluster`
returns the invalid-configuration error carrying the first matching reason
and issues no external call at all (in particular no image pull, network
creation, or container creation). -/
theorem validate_rejects_before_side_effects (env : CreateEnv) (p : CreateClusterParams)
    (h : p.ClusterName = "" ∨ p.NetworkName = "" ∨ p.Managers < 1 ∨ p.Workers < 0) :
    ∃ r, validate p = some r ∧
      CreateCluster env p = (Except.error ("invalid configuration: " ++ r), []) ∧
      ((p.ClusterName = "" ∧ r = ErrEmptyClusterName) ∨
       (p.ClusterName ≠ "" ∧ p.NetworkName = "" ∧ r = ErrEmptyNetworkName) ∨
       (p.ClusterName ≠ "" ∧ p.NetworkName ≠ "" ∧ p.Managers < 1 ∧
         r = ErrInvalidManagersCount) ∨
       (p.ClusterName ≠ "" ∧ p.NetworkName ≠ "" ∧ ¬p.Managers < 1 ∧ p.Workers < 0 ∧
         r = ErrInvalidWorkerCount)) := by
  by_cases h1 : p.ClusterName = ""
  · exact ⟨ErrEmptyClusterName, by simp [validate, h1],
      by simp [CreateCluster, validate, h1, errE], Or.inl ⟨h1, rfl⟩⟩
  · by_cases h2 : p.NetworkName = ""
    · exact ⟨ErrEmptyNetworkName, by simp [validate, h1, h2],
        by simp [CreateCluster, validate, h1, h2, errE], Or.inr (Or.inl ⟨h1, h2, rfl⟩)⟩
    · by_cases h3 : p.Managers < 1
      · exact ⟨ErrInvalidManagersCount, by simp [validate, h1, h2, h3],
          by simp [CreateCluster, validate, h1, h2, h3, errE],
          Or.inr (Or.inr (Or.inl ⟨h1, h2, h3, rfl⟩))⟩
      · have h4 : p.Workers < 0 := by
          rcases h with h | h | h | h
          · exact absurd h h1
          · exact absurd h h2
          · exact absurd h h3
          · exact h
        exact ⟨ErrInvalidWorkerCount, by simp [validate, h1, h2, h3, h4],
          by simp [CreateCluster, validate, h1, h2, h3, h4, errE],
          Or.inr (Or.inr (Or.inr ⟨h1, h2, h3, h4, rfl⟩))⟩

/-- C1 witness: a request failing every check is rejected with the
empty-cluster-name reason and an empty call trace. -/
theorem validate_rejects_before_side_effects_witness :
    (paramsInvalid.ClusterName = "" ∨ paramsInvalid.NetworkName = "" ∨
      paramsInvalid.Managers < 1 ∨ paramsInvalid.Workers < 0) ∧
    ∃ r, validate paramsInvalid = some r ∧
      CreateCluster okCreateEnv paramsInvalid =
        (Except.error ("invalid configuration: " ++ r), []) ∧
      ((paramsInvalid.ClusterName = "" ∧ r = ErrEmptyClusterName) ∨
       (paramsInvalid.ClusterName ≠ "" ∧ paramsInvalid.NetworkName = "" ∧
         r = ErrEmptyNetworkName) ∨
       (paramsInvalid.ClusterName ≠ "" ∧ paramsInvalid.NetworkName ≠ "" ∧
         paramsInvalid.Managers < 1 ∧ r = ErrInvalidManagersCount) ∨
       (paramsInvalid.ClusterName ≠ "" ∧ paramsInvalid.NetworkName ≠ "" ∧
         ¬paramsInvalid.Managers < 1 ∧ paramsInvalid.Workers < 0 ∧
         r = ErrInvalidWorkerCount)) :=
  ⟨Or.inl (by decide),
   validate_rejects_before_side_effects okCreateEnv paramsInvalid (Or.inl (by decide))⟩

/-! ## Injectivity of the decimal rendering used by the name generator -/

theorem toDigitsCore_shift (f : Nat) : ∀ (n : Nat) (acc : List Char),
    Nat.toDigitsCore 10 f n acc = Nat.toDigitsCore 10 f n [] ++ acc := by
  induction f with
  | zero => intro n acc; simp [Nat.toDigitsCore]
  | succ f ih =>
    intro n acc
    simp only [Nat.toDigitsCore]
    by_cases h : n / 10 = 0
    · simp [h]
    · simp only [if_neg h]
      rw [ih (n / 10) (Nat.digitChar (n % 10) :: acc), ih (n / 10) [Nat.digitChar (n % 10)]]
      simp

theorem decodeDec_append (init : Nat) (l1 l2 : List Char) :
    decodeDec init (l1 ++ l2) = decodeDec (decodeDec init l1) l2 := by
  simp [decodeDec, List.foldl_append]

theorem decodeDigit_digitChar {d : Nat} (h : d < 10) :
    decodeDigit (Nat.digitChar d) = d := by
  interval_cases d <;> decide

theorem decodeDec_toDigitsCore (f : Nat) : ∀ (n init : Nat), n < 10 ^ f →
    decodeDec init (Nat.toDigitsCore 10 f n []) =
      init * 10 ^ (Nat.toDigitsCore 10 f n []).length + n := by
  induction f with
  | zero =>
    intro n init h
    interval_cases n
    simp [Nat.toDigitsCore, decodeDec]
  | succ f ih =>
    intro n init h
    simp only [Nat.toDigitsCore]
    by_cases h0 : n / 10 = 0
    · have hn : n < 10 := by omega
      have hmod : n % 10 = n := Nat.mod_eq_of_lt hn
      simp only [if_pos h0]
      calc decodeDec init [Nat.digitChar (n % 10)]
          = init * 10 + decodeDigit (Nat.digitChar (n % 10)) := by simp [decodeDec]
        _ = init * 10 + n := by
            rw [decodeDigit_digitChar (Nat.mod_lt n (by norm_num)), hmod]
        _ = init * 10 ^ ([Nat.digitChar (n % 10)]).length + n := by simp
    · simp only [if_neg h0]
      rw [toDigitsCore_shift, decodeDec_append]
      have hlt : n / 10 < 10 ^ f := by
        rw [Nat.div_lt_iff_lt_mul (by norm_num : (0 : Nat) < 10)]
        calc n < 10 ^ (f + 1) := h
          _ = 10 ^ f * 10 := pow_succ 10 f
      rw [ih (n / 10) init hlt]
      have hml : n % 10 < 10 := Nat.mod_lt n (by norm_num)
      have hdm : 10 * (n / 10) + n % 10 = n := Nat.div_add_mod n 10
      have hstep : decodeDec
            (init * 10 ^ (Nat.toDigitsCore 10 f (n / 10) []).length + n / 10)
            [Nat.digitChar (n % 10)] =
          (init * 10 ^ (Nat.toDigitsCore 10 f (n / 10) []).length + n / 10) * 10 + n % 10 := by
        simp [decodeDec, decodeDigit_digitChar hml]
      rw [hstep]
      have hL : (Nat.toDigitsCore 10 f (n / 10) [] ++ [Nat.digitChar (n % 10)]).length =
          (Nat.toDigitsCore 10 f (n / 10) []).length + 1 := by simp
      rw [hL]
      have key : ∀ (L q r : Nat), 10 * q + r = n →
          (init * 10 ^ L + q) * 10 + r = init * 10 ^ (L + 1) + n := by
        intro L q r hqr
        subst hqr
        rw [pow_succ]
        ring
      exact key _ _ _ hdm

theorem decodeDec_toDigits (n : Nat) : decodeDec 0 (Nat.toDigits 10 n) = n := by
  have h : n < 10 ^ (n + 1) :=
    lt_of_lt_of_le (Nat.lt_pow_self (by norm_num) n)
      (Nat.pow_le_pow_right (by norm_num) (Nat.le_succ n))
  simpa [Nat.toDigits] using decodeDec_toDigitsCore (n + 1) n 0 h

theorem natRepr_data (n : Nat) : (Nat.repr n).data = Nat.toDigits 10 n := rfl

theorem natRepr_injective : Function.Injective Nat.repr := by
  intro a b h
  have hd : Nat.toDigits 10 a = Nat.toDigits 10 b := by
    have := congrArg String.data h
    simpa [natRepr_data] using this
  have := congrArg (decodeDec 0) hd
  simpa [decodeDec_toDigits] using this

/-! ## The sprintf model on directive-free prefixes -/

theorem fmtD_cons_lit (c : Char) (hc : c ≠ '%') (l : List Char) (n : Nat) (used : Bool) :
    fmtD (c :: l) n used = (c :: (fmtD l n used).1, (fmtD l n used).2) := by
  cases l with
  | nil => simp [fmtD, hc]
  | cons c2 rest2 =>
    by_cases hd : c2 = 'd'
    · subst hd; simp [fmtD, hc]
    · by_cases hp : c2 = '%'
      · subst hp; simp [fmtD, hc]
      · simp [fmtD, hc, hd, hp]

theorem fmtD_literal : ∀ (l : List Char), (∀ c ∈ l, c ≠ '%') → ∀ (rest : List Char) (n : Nat)
    (used : Bool), fmtD (l ++ rest) n used = (l ++ (fmtD rest n used).1, (fmtD rest n used).2) := by
  intro l
  induction l with
  | nil => intro _ rest n used; simp
  | cons c t ih =>
    intro h rest n used
    have hc : c ≠ '%' := h c (List.mem_cons_self c t)
    have ht : ∀ x ∈ t, x ≠ '%' := fun x hx => h x (List.mem_cons_of_mem c hx)
    rw [List.cons_append, fmtD_cons_lit c hc, ih ht rest n used]
    simp

theorem fmtD_trailing_directive (n : Nat) :
    fmtD ['%', 'd'] n false = ((Nat.repr n).data, true) := by
  simp [fmtD]

theorem sprintfD_clean (pre : List Char) (hpre : ∀ c ∈ pre, c ≠ '%') (n : Nat) :
    sprintfD (String.mk (pre ++ ['%', 'd'])) n = String.mk (pre ++ (Nat.repr n).data) := by
  simp [sprintfD, fmtD_literal pre hpre ['%', 'd'] n false, fmtD_trailing_directive]

theorem sprintfD_pattern (c : String) (hc : ∀ ch ∈ c.data, ch ≠ '%') (mid : List Char)
    (hmid : ∀ ch ∈ mid, ch ≠ '%') (n : Nat) :
    sprintfD (String.mk (c.data ++ (mid ++ ['%', 'd']))) n =
      String.mk ((c.data ++ mid) ++ (Nat.repr n).data) := by
  have hall : ∀ ch ∈ c.data ++ mid, ch ≠ '%' := by
    intro ch hch
    rcases List.mem_append.mp hch with h | h
    · exact hc ch h
    · exact hmid ch h
  have h := sprintfD_clean (c.data ++ mid) hall n
  rwa [List.append_assoc] at h

/-! ## C2: generated node names -/

theorem managerName_eq (c : String) (hc : ∀ ch ∈ c.data, ch ≠ '%') (i : Nat) :
    sprintfD (c ++ "-manager-%d") i = c ++ "-manager-" ++ Nat.repr i :=
  sprintfD_pattern c hc ("-manager-").data (by decide) i

theorem workerName_eq (c : String) (hc : ∀ ch ∈ c.data, ch ≠ '%') (i : Nat) :
    sprintfD (c ++ "-worker-%d") i = c ++ "-worker-" ++ Nat.repr i :=
  sprintfD_pattern c hc ("-worker-").data (by decide) i

theorem namesSeq_eq (P : String) : ∀ (k i : Nat),
    namesSeq { pattern := P, index := i } k =
      (List.range k).map (fun j => sprintfD P (i + j)) := by
  intro k
  induction k with
  | zero => intro i; simp [namesSeq]
  | succ k ih =>
    intro i
    rw [List.range_succ_eq_map]
    simp only [namesSeq, generateName, List.map_cons, List.map_map]
    congr 1
    rw [ih (i + 1)]
    apply List.map_congr_left
    intro j _
    have h1 : i + 1 + j = i + (j + 1) := by omega
    simp [Function.comp, h1]

theorem otherManagerNames_eq (c : String) (hc : ∀ ch ∈ c.data, ch ≠ '%') (K : Nat) :
    otherManagerNames c K =
      (List.range K).map (fun i => c ++ "-manager-" ++ Nat.repr (i + 1)) := by
  show namesSeq { pattern := c ++ "-manager-%d", index := 1 } K = _
  rw [namesSeq_eq]
  apply List.map_congr_left
  intro j _
  rw [managerName_eq c hc (1 + j), Nat.add_comm 1 j]

theorem workerNames_eq (c : String) (hc : ∀ ch ∈ c.data, ch ≠ '%') (W : Nat) :
    workerNames c W = (List.range W).map (fun i => c ++ "-worker-" ++ Nat.repr i) := by
  show namesSeq { pattern := c ++ "-worker-%d", index := 0 } W = _
  rw [namesSeq_eq]
  apply List.map_congr_left
  intro j _
  rw [workerName_eq c hc (0 + j), Nat.zero_add j]

theorem managerName_injective (c : String) :
    Function.Injective (fun i => c ++ "-manager-" ++ Nat.repr i) := by
  intro x y h
  have hd := congrArg String.data h
  simp only [String.data_append] at hd
  rw [List.append_assoc, List.append_assoc] at hd
  have h2 := List.append_cancel_left hd
  have h3 := List.append_cancel_left h2
  exact natRepr_injective (String.ext h3)

theorem workerName_injective (c : String) :
    Function.Injective (fun i => c ++ "-worker-" ++ Nat.repr i) := by
  intro x y h
  have hd := congrArg String.data h
  simp only [String.data_append] at hd
  rw [List.append_assoc, List.append_assoc] at hd
  have h2 := List.append_cancel_left hd
  have h3 := List.append_cancel_left h2
  exact natRepr_injective (String.ext h3)

theorem managerName_ne_workerName (c : String) (x y : Nat) :
    c ++ "-manager-" ++ Nat.repr x ≠ c ++ "-worker-" ++ Nat.repr y := by
  intro h
  have hd := congrArg String.data h
  simp only [String.data_append] at hd
  rw [List.append_assoc, List.append_assoc] at hd
  have h2 := List.append_cancel_left hd
  simp only [List.cons_append, List.cons.injEq] at h2
  exact absurd h2.2.1 (by decide)

/-- C2 counterexample: the claim quantifies over every cluster name, but
for a cluster name containing a format directive (`"a%d"`) the generated
primary name does not follow the `<cluster>-manager-<i>` pattern: the
directive inside the name consumes the index and the trailing verb renders
as `%!d(MISSING)`, exactly as `fmt.Sprintf` does. -/
theorem nameGenerator_pattern_directive_cex :
    primaryNodeNameOf "a%d" = "a0-manager-%!d(MISSING)" ∧
    primaryNodeNameOf "a%d" ≠ "a%d" ++ "-manager-" ++ Nat.repr 0 := by
  constructor
  · decide
  · decide

/-- C2 amended: for every cluster name free of `%` directives, the
generated names follow the role patterns with one counter per role — the
primary takes manager index 0, the other managers take indices 1..K, the
workers take indices 0..W-1 — and all generated names are pairwise
distinct. -/
theorem nodeNames_pattern_distinct (c : String) (K W : Nat)
    (hc : ∀ ch ∈ c.data, ch ≠ '%') :
    primaryNodeNameOf c = c ++ "-manager-" ++ Nat.repr 0 ∧
    otherManagerNames c K =
      (List.range K).map (fun i => c ++ "-manager-" ++ Nat.repr (i + 1)) ∧
    workerNames c W = (List.range W).map (fun i => c ++ "-worker-" ++ Nat.repr i) ∧
    (allNodeNames c K W).Nodup := by
  refine ⟨managerName_eq c hc 0, otherManagerNames_eq c hc K, workerNames_eq c hc W, ?_⟩
  have hshape : allNodeNames c K W =
      (List.range (K + 1)).map (fun i => c ++ "-manager-" ++ Nat.repr i) ++
      (List.range W).map (fun i => c ++ "-worker-" ++ Nat.repr i) := by
    show sprintfD (c ++ "-manager-%d") 0 :: (otherManagerNames c K ++ workerNames c W) = _
    rw [managerName_eq c hc 0, otherManagerNames_eq c hc K, workerNames_eq c hc W,
      List.range_succ_eq_map, List.map_cons, List.map_map]
    simp [Function.comp, Nat.add_comm]
  rw [hshape]
  refine List.Nodup.append ?_ ?_ ?_
  · exact (List.nodup_range (K + 1)).map (managerName_injective c)
  · exact (List.nodup_range W).map (workerName_injective c)
  · intro a ham haw
    obtain ⟨i, _, hi⟩ := List.mem_map.mp ham
    obtain ⟨j, _, hj⟩ := List.mem_map.mp haw
    exact managerName_ne_workerName c i j (hi.trans hj.symm)

/-- C2 witness: a directive-free cluster name with 2 extra managers and 2
workers. -/
theorem nodeNames_pattern_distinct_witness :
    (∀ ch ∈ ("blue" : String).data, ch ≠ '%') ∧
    (primaryNodeNameOf "blue" = "blue" ++ "-manager-" ++ Nat.repr 0 ∧
     otherManagerNames "blue" 2 =
       (List.range 2).map (fun i => "blue" ++ "-manager-" ++ Nat.repr (i + 1)) ∧
     workerNames "blue" 2 =
       (List.range 2).map (fun i => "blue" ++ "-worker-" ++ Nat.repr i) ∧
     (allNodeNames "blue" 2 2).Nodup) :=
  ⟨by decide, nodeNames_pattern_distinct "blue" 2 2 (by decide)⟩

/-! ## Projection-style trace-monad lemmas and segment lemmas -/

theorem bindE_fst_ok {α β : Type} {x : TraceM α} {f : α → TraceM β} {b : β} :
    (bindE x f).1 = Except.ok b ↔ ∃ a, x.1 = Except.ok a ∧ (f a).1 = Except.ok b := by
  cases hx : x.1 <;> simp [bindE, hx]

theorem bindE_snd_of_ok {α β : Type} {x : TraceM α} {f : α → TraceM β} {a : α}
    (h : x.1 = Except.ok a) : (bindE x f).2 = x.2 ++ (f a).2 := by
  simp [bindE, h]

theorem bindE_snd_of_err {α β : Type} {x : TraceM α} {f : α → TraceM β} {e : String}
    (h : x.1 = Except.error e) : (bindE x f).2 = x.2 := by
  simp [bindE, h]

theorem wrapE_fst_ok {α : Type} {pre : String} {x : TraceM α} {a : α} :
    (wrapE pre x).1 = Except.ok a ↔ x.1 = Except.ok a := by
  cases hx : x.1 <;> simp [wrapE, hx]

theorem bindE_all {α β : Type} {x : TraceM α} {f : α → TraceM β} {q : Event → Bool}
    (hx : ∀ e ∈ x.2, q e = true) (hf : ∀ a, ∀ e ∈ (f a).2, q e = true) :
    ∀ e ∈ (bindE x f).2, q e = true := by
  intro e he
  rcases bindE_mem he with h | ⟨a, _, h⟩
  · exact hx e h
  · exact hf a e h

theorem countP_zero_of_all {q : Event → Bool} {l : List Event}
    (h : ∀ e ∈ l, q e = false) : List.countP q l = 0 := by
  rw [List.countP_eq_zero]
  intro a ha
  simp [h a ha]

/-! segment event shapes -/

theorem runContainer_events (env : CreateEnv) (name role : String) :
    ∀ e ∈ (runContainer env name role).2,
      (∃ nm, e = Event.containerCreate nm role) ∨ ∃ cid, e = Event.containerStart cid := by
  intro e he
  cases hc : env.containerCreateRes name with
  | error er =>
    simp [runContainer, hc] at he
    exact Or.inl ⟨name, he⟩
  | ok cid =>
    cases hs : env.containerStartRes cid with
    | error er =>
      simp [runContainer, hc, hs] at he
      rcases he with he | he
      · exact Or.inl ⟨name, he⟩
      · exact Or.inr ⟨cid, he⟩
    | ok _ =>
      simp [runContainer, hc, hs] at he
      rcases he with he | he
      · exact Or.inl ⟨name, he⟩
      · exact Or.inr ⟨cid, he⟩

theorem runContainer_fst_ok {env : CreateEnv} {name role cid : String}
    (h : (runContainer env name role).1 = Except.ok cid) :
    (runContainer env name role).2 =
      [Event.containerCreate name role, Event.containerStart cid] := by
  cases hc : env.containerCreateRes name with
  | error er => simp [runContainer, hc] at h
  | ok cid2 =>
    cases hs : env.containerStartRes cid2 with
    | error er => simp [runContainer, hc, hs] at h
    | ok _ =>
      simp [runContainer, hc, hs] at h
      subst h
      simp [runContainer, hc, hs]

theorem runContainersGo_events (env : CreateEnv) (role : String) :
    ∀ (n : Nat) (gen : nameGenerator),
      ∀ e ∈ (runContainersGo env n role gen).2,
        (∃ nm, e = Event.containerCreate nm role) ∨ ∃ cid, e = Event.containerStart cid := by
  intro n
  induction n with
  | zero => intro gen e he; simp [runContainersGo, retE] at he
  | succ r ih =>
    intro gen e he
    simp only [runContainersGo] at he
    cases h1 : (runContainer env (generateName gen).1 role).1 with
    | error er =>
      rw [h1] at he
      simp at he
      exact runContainer_events env (generateName gen).1 role e he
    | ok cid =>
      rw [h1] at he
      cases h2 : (runContainersGo env r role (generateName gen).2).1 with
      | error er =>
        rw [h2] at he
        simp at he
        rcases he with he | he
        · exact runContainer_events env (generateName gen).1 role e he
        · exact ih (generateName gen).2 e he
      | ok cids =>
        rw [h2] at he
        simp at he
        rcases he with he | he
        · exact runContainer_events env (generateName gen).1 role e he
        · exact ih (generateName gen).2 e he

theorem runContainersGo_ok_counts (env : CreateEnv) (role : String) :
    ∀ (n : Nat) (gen : nameGenerator) (cids : List String),
      (runContainersGo env n role gen).1 = Except.ok cids →
        cids.length = n ∧
        List.countP (isCreateRoleEv role) (runContainersGo env n role gen).2 = n := by
  intro n
  induction n with
  | zero =>
    intro gen cids h
    simp [runContainersGo, retE] at h ⊢
    simp [← h]
  | succ r ih =>
    intro gen cids h
    simp only [runContainersGo] at h ⊢
    cases h1 : (runContainer env (generateName gen).1 role).1 with
    | error er => rw [h1] at h; simp at h
    | ok cid =>
      rw [h1] at h
      cases h2 : (runContainersGo env r role (generateName gen).2).1 with
      | error er => rw [h2] at h; simp at h
      | ok cids2 =>
        rw [h2] at h
        simp at h
        obtain ⟨hlen, hcount⟩ := ih (generateName gen).2 cids2 h2
        have hone := runContainer_fst_ok h1
        subst h
        simp [List.countP_append, hone, List.countP_cons, isCreateRoleEv, hlen, hcount]

theorem waitDaemonReady_events (ce : String) :
    ∀ (ticks : List (Except String Unit)), ∀ e ∈ (waitDaemonReady ticks ce).2,
      e = Event.ping := by
  intro ticks
  induction ticks with
  | nil => intro e he; simp [waitDaemonReady] at he
  | cons t rest ih =>
    intro e he
    cases t with
    | error qe =>
      simp [waitDaemonReady] at he
      rcases he with he | he
      · exact he
      · exact ih e he
    | ok _ => simpa [waitDaemonReady] using he

theorem waitClusterReady_events (ce : String) (em ew : Int) :
    ∀ (ticks : List (Except String (List Node))),
      ∀ e ∈ (waitClusterReady ticks ce em ew).2, e = Event.nodeList := by
  intro ticks
  induction ticks with
  | nil => intro e he; simp [waitClusterReady] at he
  | cons t rest ih =>
    intro e he
    cases t with
    | error qe =>
      simp [waitClusterReady] at he
      rcases he with he | he
      · exact he
      · exact ih e he
    | ok nodes =>
      by_cases hm : (countNodesPerRole nodes).1 ≠ em
      · simp [waitClusterReady, hm] at he
        rcases he with he | he
        · exact he
        · exact ih e he
      · by_cases hw : (countNodesPerRole nodes).2 ≠ ew
        · simp [waitClusterReady, hm, hw] at he
          rcases he with he | he
          · exact he
          · exact ih e he
        · simpa [waitClusterReady, hm, hw] using he

theorem pullStep_events (env : CreateEnv) (img : String) :
    ∀ e ∈ (pullStep env img).2, e = Event.imagePull img := by
  intro e he
  cases hp : env.imagePullRes with
  | error er => simpa [pullStep, hp] using he
  | ok _ =>
    cases hd : env.pullDrainRes with
    | error er => simpa [pullStep, hp, hd] using he
    | ok _ => simpa [pullStep, hp, hd] using he

theorem execContainer_events (env : ExecEnv) (cid : String) (cmd : List String) :
    ∀ e ∈ (execContainer env cid cmd).2,
      e = Event.execCreate cid cmd ∨ ∃ eid, e = Event.execStart eid := by
  intro e he
  cases hc : env.execCreateRes cid cmd with
  | error er => simp [execContainer, hc] at he; exact Or.inl he
  | ok eid =>
    cases hs : env.execStartRes eid with
    | error er =>
      simp [execContainer, hc, hs] at he
      rcases he with he | he
      · exact Or.inl he
      · exact Or.inr ⟨eid, he⟩
    | ok _ =>
      simp [execContainer, hc, hs] at he
      rcases he with he | he
      · exact Or.inl he
      · exact Or.inr ⟨eid, he⟩

theorem execContainer_fst_ok {env : ExecEnv} {cid : String} {cmd : List String}
    (h : (execContainer env cid cmd).1 = Except.ok ()) :
    ∃ eid, (execContainer env cid cmd).2 =
      [Event.execCreate cid cmd, Event.execStart eid] := by
  cases hc : env.execCreateRes cid cmd with
  | error er => simp [execContainer, hc] at h
  | ok eid =>
    cases hs : env.execStartRes eid with
    | error er => simp [execContainer, hc, hs] at h
    | ok _ => exact ⟨eid, by simp [execContainer, hc, hs]⟩

theorem runAllExec_events (env : ExecEnv) :
    ∀ (jobs : List (String × List String)), ∀ e ∈ (runAllExec env jobs).2,
      (∃ cid cmd, e = Event.execCreate cid cmd) ∨ ∃ eid, e = Event.execStart eid := by
  intro jobs
  induction jobs with
  | nil => intro e he; simp [runAllExec, retE] at he
  | cons job rest ih =>
    intro e he
    simp only [runAllExec] at he
    rw [List.mem_append] at he
    rcases he with he | he
    · rcases execContainer_events env job.1 job.2 e he with h | h
      · exact Or.inl ⟨job.1, job.2, h⟩
      · exact Or.inr h
    · exact ih e he

theorem runAllExec_ok_countQ (env : ExecEnv) (q : Event → Bool)
    (hq : ∀ eid, q (Event.execStart eid) = false) :
    ∀ (jobs : List (String × List String)),
      (runAllExec env jobs).1 = Except.ok () →
      List.countP q (runAllExec env jobs).2 =
        List.countP (fun j => q (Event.execCreate j.1 j.2)) jobs := by
  intro jobs
  induction jobs with
  | nil => intro _; simp [runAllExec, retE]
  | cons job rest ih =>
    intro h
    simp only [runAllExec] at h ⊢
    cases h1 : (execContainer env job.1 job.2).1 with
    | error er => rw [h1] at h; simp at h
    | ok u =>
      rw [h1] at h
      obtain ⟨eid, htr⟩ := execContainer_fst_ok (by rw [h1])
      rw [List.countP_append, htr]
      rw [ih h]
      simp [List.countP_cons, hq eid]
      omega

/-! ## Phase-level lemmas for CreateCluster -/

theorem provisionEv_classifiers {e : Event} (h : provisionEv e = true) :
    isSwarmInitEv e = false ∧ isSwarmInspectEv e = false ∧ isJoinExecEv e = false ∧
    isLoadExecEv e = false ∧ ∀ cmd, isExecCmdEv cmd e = false := by
  cases e <;>
    simp [provisionEv] at h ⊢ <;>
    simp [isSwarmInitEv, isSwarmInspectEv, isJoinExecEv, isLoadExecEv, isExecCmdEv]

theorem provisionPhase_events (env : CreateEnv) (p : CreateClusterParams) :
    ∀ e ∈ (provisionPhase env p).2, provisionEv e = true := by
  simp only [provisionPhase]
  refine bindE_all ?_ fun _ => ?_
  · intro e he
    simp [imageAlreadyExist] at he
    simp [he, provisionEv]
  refine bindE_all ?_ fun _ => ?_
  · intro e he
    split at he
    · have := pullStep_events env (imageNameOf p) e he
      simp [this, provisionEv]
    · simp [retE] at he
  refine bindE_all ?_ fun _netID => ?_
  · intro e he
    rw [wrapE_snd] at he
    simp at he
    simp [he, provisionEv]
  refine bindE_all ?_ fun _ => ?_
  · intro e he
    rw [wrapE_snd] at he
    simp at he
  refine bindE_all ?_ fun primaryCID => ?_
  · intro e he
    rw [wrapE_snd] at he
    rcases runContainer_events env _ primaryNode e he with ⟨nm, rfl⟩ | ⟨cid, rfl⟩ <;>
      simp [provisionEv]
  refine bindE_all ?_ fun info => ?_
  · intro e he
    rw [wrapE_snd] at he
    simp at he
    simp [he, provisionEv]
  refine bindE_all ?_ fun port => ?_
  · intro e he
    rw [wrapE_snd] at he
    simp at he
  refine bindE_all ?_ fun host => ?_
  · intro e he
    rw [wrapE_snd] at he
    simp at he
  refine bindE_all ?_ fun managerCIDs => ?_
  · intro e he
    rw [wrapE_snd] at he
    rcases runContainersGo_events env managerNode _ _ e he with ⟨nm, rfl⟩ | ⟨cid, rfl⟩ <;>
      simp [provisionEv]
  refine bindE_all ?_ fun workerCIDs => ?_
  · intro e he
    rw [wrapE_snd] at he
    rcases runContainersGo_events env workerNode _ _ e he with ⟨nm, rfl⟩ | ⟨cid, rfl⟩ <;>
      simp [provisionEv]
  intro e he
  simp [retE] at he

theorem provision_count_zero (env : CreateEnv) (p : CreateClusterParams) (q : Event → Bool)
    (hq : ∀ e, provisionEv e = true → q e = false) :
    List.countP q (provisionPhase env p).2 = 0 :=
  countP_zero_of_all fun e he => hq e (provisionPhase_events env p e he)

theorem runContainersGo_count_ne (env : CreateEnv) (role r2 : String) (hne : r2 ≠ role) :
    ∀ (n : Nat) (gen : nameGenerator),
      List.countP (isCreateRoleEv r2) (runContainersGo env n role gen).2 = 0 := by
  intro n gen
  apply countP_zero_of_all
  intro e he
  rcases runContainersGo_events env role n gen e he with ⟨nm, rfl⟩ | ⟨cid, rfl⟩
  · simp [isCreateRoleEv]
    exact fun h => hne h.symm
  · simp [isCreateRoleEv]

theorem provisionPhase_fst_ok {env : CreateEnv} {p : CreateClusterParams} {prov : ProvisionOut}
    (h : (provisionPhase env p).1 = Except.ok prov) :
    prov.managerCIDs.length = (managersToRun p).toNat ∧
    prov.workerCIDs.length = p.Workers.toNat ∧
    List.countP (isCreateRoleEv primaryNode) (provisionPhase env p).2 = 1 ∧
    List.countP (isCreateRoleEv managerNode) (provisionPhase env p).2 =
      (managersToRun p).toNat ∧
    List.countP (isCreateRoleEv workerNode) (provisionPhase env p).2 = p.Workers.toNat := by
  simp only [provisionPhase, runContainers] at h ⊢
  rw [bindE_fst_ok] at h
  obtain ⟨a1, h1, h⟩ := h
  rw [bindE_fst_ok] at h
  obtain ⟨a2, h2, h⟩ := h
  rw [bindE_fst_ok] at h
  obtain ⟨netID, h3, h⟩ := h
  rw [bindE_fst_ok] at h
  obtain ⟨a4, h4, h⟩ := h
  rw [bindE_fst_ok] at h
  obtain ⟨primaryCID, h5, h⟩ := h
  rw [bindE_fst_ok] at h
  obtain ⟨info, h6, h⟩ := h
  rw [bindE_fst_ok] at h
  obtain ⟨port, h7, h⟩ := h
  rw [bindE_fst_ok] at h
  obtain ⟨host, h8, h⟩ := h
  rw [bindE_fst_ok] at h
  obtain ⟨managerCIDs, h9, h⟩ := h
  rw [bindE_fst_ok] at h
  obtain ⟨workerCIDs, h10, h⟩ := h
  simp only [retE] at h
  injection h with h
  subst h
  have hmgr := runContainersGo_ok_counts env managerNode (managersToRun p).toNat _ managerCIDs
    (wrapE_fst_ok.mp h9)
  have hwkr := runContainersGo_ok_counts env workerNode p.Workers.toNat _ workerCIDs
    (wrapE_fst_ok.mp h10)
  have hone := runContainer_fst_ok (wrapE_fst_ok.mp h5)
  have hpull : ∀ r, List.countP (isCreateRoleEv r)
      (if p.PullImage || !(imageAlreadyExist env (imageNameOf p)).1
        then pullStep env (imageNameOf p) else retE ()).2 = 0 := by
    intro r
    split
    · exact countP_zero_of_all fun e he => by
        simp [pullStep_events env (imageNameOf p) e he, isCreateRoleEv]
    · simp [retE]
  simp only [retE] at hpull
  have hpm : ¬(primaryNode = managerNode) := by decide
  have hpw : ¬(primaryNode = workerNode) := by decide
  have hmn : ¬(managerNode = primaryNode) := by decide
  have hwn : ¬(workerNode = primaryNode) := by decide
  have hmw : ¬(managerNode = workerNode) := by decide
  have hwm : ¬(workerNode = managerNode) := by decide
  have hmne := runContainersGo_count_ne env managerNode primaryNode hpm
  have hmnw := runContainersGo_count_ne env managerNode workerNode hwm
  have hwne := runContainersGo_count_ne env workerNode primaryNode hpw
  have hwnm := runContainersGo_count_ne env workerNode managerNode hmw
  refine ⟨by simpa using hmgr.1, by simpa using hwkr.1, ?_, ?_, ?_⟩
  · simp only [bindE_snd_of_ok h1]
    simp only [bindE_snd_of_ok h2]
    simp only [bindE_snd_of_ok h3]
    simp only [bindE_snd_of_ok h4]
    simp only [bindE_snd_of_ok h5]
    simp only [bindE_snd_of_ok h6]
    simp only [bindE_snd_of_ok h7]
    simp only [bindE_snd_of_ok h8]
    simp only [bindE_snd_of_ok h9]
    simp only [bindE_snd_of_ok h10]
    simp only [wrapE_snd, retE]
    simp only [List.countP_append, hpull]
    simp [imageAlreadyExist, isCreateRoleEv, hone, List.countP_cons, hmne, hwne]
  · simp only [bindE_snd_of_ok h1]
    simp only [bindE_snd_of_ok h2]
    simp only [bindE_snd_of_ok h3]
    simp only [bindE_snd_of_ok h4]
    simp only [bindE_snd_of_ok h5]
    simp only [bindE_snd_of_ok h6]
    simp only [bindE_snd_of_ok h7]
    simp only [bindE_snd_of_ok h8]
    simp only [bindE_snd_of_ok h9]
    simp only [bindE_snd_of_ok h10]
    simp only [wrapE_snd, retE]
    simp only [List.countP_append, hpull]
    simp [imageAlreadyExist, isCreateRoleEv, hone, List.countP_cons, hmgr.2, hwnm, hpm]
  · simp only [bindE_snd_of_ok h1]
    simp only [bindE_snd_of_ok h2]
    simp only [bindE_snd_of_ok h3]
    simp only [bindE_snd_of_ok h4]
    simp only [bindE_snd_of_ok h5]
    simp only [bindE_snd_of_ok h6]
    simp only [bindE_snd_of_ok h7]
    simp only [bindE_snd_of_ok h8]
    simp only [bindE_snd_of_ok h9]
    simp only [bindE_snd_of_ok h10]
    simp only [wrapE_snd, retE]
    simp only [List.countP_append, hpull]
    simp [imageAlreadyExist, isCreateRoleEv, hone, List.countP_cons, hwkr.2, hmnw, hpw]

theorem join_jobs_counts (mgr wkr : List String) (mTok wTok addr : String)
    (hne : mTok ≠ wTok) :
    List.countP (fun j => isExecCmdEv (joinCmd mTok addr) (Event.execCreate j.1 j.2))
      (mgr.map (fun cid => (cid, joinCmd mTok addr))) = mgr.length ∧
    List.countP (fun j => isExecCmdEv (joinCmd mTok addr) (Event.execCreate j.1 j.2))
      (wkr.map (fun cid => (cid, joinCmd wTok addr))) = 0 ∧
    List.countP (fun j => isExecCmdEv (joinCmd wTok addr) (Event.execCreate j.1 j.2))
      (mgr.map (fun cid => (cid, joinCmd mTok addr))) = 0 ∧
    List.countP (fun j => isExecCmdEv (joinCmd wTok addr) (Event.execCreate j.1 j.2))
      (wkr.map (fun cid => (cid, joinCmd wTok addr))) = wkr.length ∧
    List.countP (fun j => isJoinExecEv (Event.execCreate j.1 j.2))
      (mgr.map (fun cid => (cid, joinCmd mTok addr))) = mgr.length ∧
    List.countP (fun j => isJoinExecEv (Event.execCreate j.1 j.2))
      (wkr.map (fun cid => (cid, joinCmd wTok addr))) = wkr.length := by
  have cmt : ∀ {α β : Type} (f : α → β) (q : β → Bool), (∀ a, q (f a) = true) →
      ∀ l : List α, List.countP q (l.map f) = l.length := by
    intro α β f q hq l
    induction l with
    | nil => simp
    | cons x t ih => simp [List.countP_cons, hq, ih]
  have cmf : ∀ {α β : Type} (f : α → β) (q : β → Bool), (∀ a, q (f a) = false) →
      ∀ l : List α, List.countP q (l.map f) = 0 := by
    intro α β f q hq l
    induction l with
    | nil => simp
    | cons x t ih => simp [List.countP_cons, hq, ih]
  refine ⟨cmt _ _ (fun cid => by simp [isExecCmdEv]) mgr,
    cmf _ _ (fun cid => by simp [isExecCmdEv, joinCmd, Ne.symm hne]) wkr,
    cmf _ _ (fun cid => by simp [isExecCmdEv, joinCmd, hne]) mgr,
    cmt _ _ (fun cid => by simp [isExecCmdEv]) wkr,
    cmt _ _ (fun cid => by simp [isJoinExecEv, joinCmd]) mgr,
    cmt _ _ (fun cid => by simp [isJoinExecEv, joinCmd]) wkr⟩

theorem swarmPhase_fst_ok_counts {env : CreateEnv} {p : CreateClusterParams}
    {prov : ProvisionOut} {toks : JoinTokens} {cl : Cluster}
    (htok : env.swarmInspectRes = Except.ok toks)
    (hne : toks.Manager ≠ toks.Worker)
    (h : (swarmPhase env p prov).1 = Except.ok cl) :
    List.countP isSwarmInitEv (swarmPhase env p prov).2 = 1 ∧
    List.countP isSwarmInspectEv (swarmPhase env p prov).2 = 1 ∧
    (∃ addr,
      List.countP (isExecCmdEv (joinCmd toks.Manager addr)) (swarmPhase env p prov).2 =
        prov.managerCIDs.length ∧
      List.countP (isExecCmdEv (joinCmd toks.Worker addr)) (swarmPhase env p prov).2 =
        prov.workerCIDs.length ∧
      List.countP isJoinExecEv (swarmPhase env p prov).2 =
        prov.managerCIDs.length + prov.workerCIDs.length) ∧
    ∀ role, List.countP (isCreateRoleEv role) (swarmPhase env p prov).2 = 0 := by
  cases hcl : env.newSwarmClientErr with
  | some e => simp [swarmPhase, hcl, errE] at h
  | none =>
    simp only [swarmPhase, hcl] at h ⊢
    rw [bindE_fst_ok] at h
    obtain ⟨u1, hd, h⟩ := h
    rw [bindE_fst_ok] at h
    obtain ⟨u2, hinit, h⟩ := h
    rw [bindE_fst_ok] at h
    obtain ⟨toks2, ht2, h⟩ := h
    rw [bindE_fst_ok] at h
    obtain ⟨u3, hj, h⟩ := h
    rw [bindE_fst_ok] at h
    obtain ⟨u4, hc2, h⟩ := h
    have htoks : toks = toks2 := by
      have h2 := wrapE_fst_ok.mp ht2
      simp [htok] at h2
      exact h2
    subst toks2
    cases u3
    have hdz : ∀ q : Event → Bool, q Event.ping = false →
        List.countP q (waitDaemonReady env.daemonTicks env.ctxErr).2 = 0 := fun q hq =>
      countP_zero_of_all fun e he => by
        rw [waitDaemonReady_events env.ctxErr env.daemonTicks e he]; exact hq
    have hcz : ∀ q : Event → Bool, q Event.nodeList = false →
        List.countP q
          (waitClusterReady env.clusterTicks env.ctxErr p.Managers p.Workers).2 = 0 :=
      fun q hq => countP_zero_of_all fun e he => by
        rw [waitClusterReady_events env.ctxErr p.Managers p.Workers env.clusterTicks e he]
        exact hq
    have hjobs := join_jobs_counts prov.managerCIDs prov.workerCIDs toks.Manager toks.Worker
      (joinHostPort (prov.primaryCID.take 12) "2377") hne
    have hjok := wrapE_fst_ok.mp hj
    have hjz : ∀ q : Event → Bool, (∀ cid cmd, q (Event.execCreate cid cmd) = false) →
        (∀ eid, q (Event.execStart eid) = false) →
        List.countP q (runAllExec env.exec
          (prov.managerCIDs.map (fun cid => (cid,
            joinCmd toks.Manager (joinHostPort (prov.primaryCID.take 12) "2377"))) ++
           prov.workerCIDs.map (fun cid => (cid,
            joinCmd toks.Worker (joinHostPort (prov.primaryCID.take 12) "2377"))))).2 = 0 :=
      fun q hq1 hq2 => countP_zero_of_all fun e he => by
        rcases runAllExec_events env.exec _ e he with ⟨cid, cmd, rfl⟩ | ⟨eid, rfl⟩
        · exact hq1 cid cmd
        · exact hq2 eid
    have hm1 := runAllExec_ok_countQ env.exec
      (isExecCmdEv (joinCmd toks.Manager (joinHostPort (prov.primaryCID.take 12) "2377")))
      (fun eid => by simp [isExecCmdEv]) _ hjok
    have hm2 := runAllExec_ok_countQ env.exec
      (isExecCmdEv (joinCmd toks.Worker (joinHostPort (prov.primaryCID.take 12) "2377")))
      (fun eid => by simp [isExecCmdEv]) _ hjok
    have hm3 := runAllExec_ok_countQ env.exec isJoinExecEv
      (fun eid => by simp [isJoinExecEv]) _ hjok
    refine ⟨?_, ?_, ⟨joinHostPort (prov.primaryCID.take 12) "2377", ?_, ?_, ?_⟩, ?_⟩
    · simp only [bindE_snd_of_ok hd]
      simp only [bindE_snd_of_ok hinit]
      simp only [bindE_snd_of_ok ht2]
      simp only [bindE_snd_of_ok hj]
      simp only [bindE_snd_of_ok hc2]
      simp only [wrapE_snd, retE]
      simp [List.countP_append, hdz, hcz, hjz, isSwarmInitEv]
    · simp only [bindE_snd_of_ok hd]
      simp only [bindE_snd_of_ok hinit]
      simp only [bindE_snd_of_ok ht2]
      simp only [bindE_snd_of_ok hj]
      simp only [bindE_snd_of_ok hc2]
      simp only [wrapE_snd, retE]
      simp [List.countP_append, hdz, hcz, hjz, isSwarmInspectEv]
    · simp only [bindE_snd_of_ok hd]
      simp only [bindE_snd_of_ok hinit]
      simp only [bindE_snd_of_ok ht2]
      simp only [bindE_snd_of_ok hj]
      simp only [bindE_snd_of_ok hc2]
      simp only [wrapE_snd, retE]
      simp only [List.countP_append, hm1]
      rw [hjobs.1, hjobs.2.1]
      simp [hdz, hcz, isExecCmdEv]
    · simp only [bindE_snd_of_ok hd]
      simp only [bindE_snd_of_ok hinit]
      simp only [bindE_snd_of_ok ht2]
      simp only [bindE_snd_of_ok hj]
      simp only [bindE_snd_of_ok hc2]
      simp only [wrapE_snd, retE]
      simp only [List.countP_append, hm2]
      rw [hjobs.2.2.1, hjobs.2.2.2.1]
      simp [hdz, hcz, isExecCmdEv]
    · simp only [bindE_snd_of_ok hd]
      simp only [bindE_snd_of_ok hinit]
      simp only [bindE_snd_of_ok ht2]
      simp only [bindE_snd_of_ok hj]
      simp only [bindE_snd_of_ok hc2]
      simp only [wrapE_snd, retE]
      simp only [List.countP_append, hm3]
      rw [hjobs.2.2.2.2.1, hjobs.2.2.2.2.2]
      simp [hdz, hcz, isJoinExecEv]
    · intro role
      simp only [bindE_snd_of_ok hd]
      simp only [bindE_snd_of_ok hinit]
      simp only [bindE_snd_of_ok ht2]
      simp only [bindE_snd_of_ok hj]
      simp only [bindE_snd_of_ok hc2]
      simp only [wrapE_snd, retE]
      simp [List.countP_append, hdz, hcz, hjz, isCreateRoleEv]

/-- C3: in every successful `CreateCluster` run requesting `N` managers
and `W` workers (with distinct join tokens), the issued calls comprise
exactly one primary-node creation, `N-1` manager-node creations, `W`
worker-node creations, exactly one cluster initialization, exactly one
join-token retrieval, and `N-1+W` join commands of which `N-1` carry the
manager token and `W` carry the worker token. -/
theorem createCluster_success_call_counts (env : CreateEnv) (p : CreateClusterParams)
    (cl : Cluster) (toks : JoinTokens)
    (hrun : (CreateCluster env p).1 = Except.ok cl)
    (htok : env.swarmInspectRes = Except.ok toks)
    (hne : toks.Manager ≠ toks.Worker) :
    List.countP (isCreateRoleEv primaryNode) (CreateCluster env p).2 = 1 ∧
    List.countP (isCreateRoleEv managerNode) (CreateCluster env p).2 =
      (p.Managers - 1).toNat ∧
    List.countP (isCreateRoleEv workerNode) (CreateCluster env p).2 = p.Workers.toNat ∧
    List.countP isSwarmInitEv (CreateCluster env p).2 = 1 ∧
    List.countP isSwarmInspectEv (CreateCluster env p).2 = 1 ∧
    ∃ addr,
      List.countP (isExecCmdEv (joinCmd toks.Manager addr)) (CreateCluster env p).2 =
        (p.Managers - 1).toNat ∧
      List.countP (isExecCmdEv (joinCmd toks.Worker addr)) (CreateCluster env p).2 =
        p.Workers.toNat ∧
      List.countP isJoinExecEv (CreateCluster env p).2 =
        (p.Managers - 1).toNat + p.Workers.toNat := by
  cases hval : validate p with
  | some e => simp [CreateCluster, hval, errE] at hrun
  | none =>
    cases hcli : env.newHostClientErr with
    | some e => simp [CreateCluster, hval, hcli, errE] at hrun
    | none =>
      simp only [CreateCluster, hval, hcli] at hrun ⊢
      rw [bindE_fst_ok] at hrun
      obtain ⟨prov, hp, hs⟩ := hrun
      have hP := provisionPhase_fst_ok hp
      have hS := swarmPhase_fst_ok_counts htok hne hs
      obtain ⟨addr, ha1, ha2, ha3⟩ := hS.2.2.1
      have hz1 : List.countP isSwarmInitEv (provisionPhase env p).2 = 0 :=
        provision_count_zero env p _ (fun e he => (provisionEv_classifiers he).1)
      have hz2 : List.countP isSwarmInspectEv (provisionPhase env p).2 = 0 :=
        provision_count_zero env p _ (fun e he => (provisionEv_classifiers he).2.1)
      have hz3 : List.countP isJoinExecEv (provisionPhase env p).2 = 0 :=
        provision_count_zero env p _ (fun e he => (provisionEv_classifiers he).2.2.1)
      have hz4 : ∀ cmd, List.countP (isExecCmdEv cmd) (provisionPhase env p).2 = 0 :=
        fun cmd => provision_count_zero env p _
          (fun e he => (provisionEv_classifiers he).2.2.2.2 cmd)
      have hmr : (managersToRun p).toNat = (p.Managers - 1).toNat := rfl
      refine ⟨?_, ?_, ?_, ?_, ?_, addr, ?_, ?_, ?_⟩ <;>
        simp only [bindE_snd_of_ok hp, List.countP_append] <;>
        simp [hP.2.2.1, hP.2.2.2.1, hP.2.2.2.2, hS.1, hS.2.1, hS.2.2.2, hz1, hz2, hz3, hz4,
          ha1, ha2, ha3, hP.1, hP.2.1, hmr]


/-- C3 witness: a fully successful 3-manager, 2-worker run over the
all-success oracle. -/
theorem createCluster_success_call_counts_witness :
    (CreateCluster okCreateEnv params32).1 = Except.ok cluster32 ∧
    okCreateEnv.swarmInspectRes = Except.ok toks32 ∧
    toks32.Manager ≠ toks32.Worker ∧
    List.countP (isCreateRoleEv primaryNode) (CreateCluster okCreateEnv params32).2 = 1 ∧
    List.countP (isCreateRoleEv managerNode) (CreateCluster okCreateEnv params32).2 = 2 ∧
    List.countP (isCreateRoleEv workerNode) (CreateCluster okCreateEnv params32).2 = 2 ∧
    List.countP isSwarmInitEv (CreateCluster okCreateEnv params32).2 = 1 ∧
    List.countP isSwarmInspectEv (CreateCluster okCreateEnv params32).2 = 1 := by
  have h := createCluster_success_call_counts okCreateEnv params32 cluster32 toks32
    (by rfl) (by rfl) (by decide)
  exact ⟨by rfl, by rfl, by decide, h.1, h.2.1, h.2.2.1, h.2.2.2.1, h.2.2.2.2.1⟩

/-! ## C7: initialization and token retrieval between daemon readiness
and the join fan-out -/

theorem wrapE_fst_err {α : Type} {pre e : String} {x : TraceM α}
    (h : x.1 = Except.error e) : (wrapE pre x).1 = Except.error (pre ++ ": " ++ e) := by
  simp [wrapE, h]

theorem noneUntil_of_no_p {p stop : Event → Bool} :
    ∀ {l : List Event}, (∀ e ∈ l, p e = false) → noneUntil p stop l = true := by
  intro l
  induction l with
  | nil => intro _; rfl
  | cons e t ih =>
    intro h
    by_cases hs : stop e = true
    · simp [noneUntil, hs]
    · simp only [Bool.not_eq_true] at hs
      rw [show noneUntil p stop (e :: t) = noneUntil p stop t by
        simp [noneUntil, hs, h e (List.mem_cons_self e t)]]
      exact ih fun x hx => h x (List.mem_cons_of_mem e hx)

theorem noneUntil_append_clean {p stop : Event → Bool} :
    ∀ {l1 l2 : List Event}, (∀ e ∈ l1, p e = false ∧ stop e = false) →
      noneUntil p stop (l1 ++ l2) = noneUntil p stop l2 := by
  intro l1
  induction l1 with
  | nil => intro l2 _; rfl
  | cons e t ih =>
    intro l2 h
    have he := h e (List.mem_cons_self e t)
    simp only [List.cons_append]
    rw [show noneUntil p stop (e :: (t ++ l2)) = noneUntil p stop (t ++ l2) by
      simp [noneUntil, he.1, he.2]]
    exact ih fun x hx => h x (List.mem_cons_of_mem e hx)

theorem noneUntil_stop {p stop : Event → Bool} {e : Event} {l : List Event}
    (h : stop e = true) : noneUntil p stop (e :: l) = true := by
  simp [noneUntil, h]

theorem noneUntil_cons_skip {p stop : Event → Bool} {e : Event} {l : List Event}
    (hs : stop e = false) (hp : p e = false) :
    noneUntil p stop (e :: l) = noneUntil p stop l := by
  simp [noneUntil, hs, hp]

theorem swarmPhase_order (env : CreateEnv) (p : CreateClusterParams) (prov : ProvisionOut) :
    List.countP isSwarmInitEv (swarmPhase env p prov).2 ≤ 1 ∧
    List.countP isSwarmInspectEv (swarmPhase env p prov).2 ≤ 1 ∧
    (0 < List.countP isJoinExecEv (swarmPhase env p prov).2 →
      List.countP isSwarmInitEv (swarmPhase env p prov).2 = 1 ∧
      List.countP isSwarmInspectEv (swarmPhase env p prov).2 = 1 ∧
      (waitDaemonReady env.daemonTicks env.ctxErr).1 = Except.ok ()) ∧
    noneUntil isJoinExecEv isSwarmInspectEv (swarmPhase env p prov).2 = true ∧
    noneUntil isSwarmInspectEv isSwarmInitEv (swarmPhase env p prov).2 = true := by
  have hdz : ∀ q : Event → Bool, q Event.ping = false →
      List.countP q (waitDaemonReady env.daemonTicks env.ctxErr).2 = 0 := fun q hq =>
    countP_zero_of_all fun e he => by
      rw [waitDaemonReady_events env.ctxErr env.daemonTicks e he]; exact hq
  have hcz : ∀ q : Event → Bool, q Event.nodeList = false →
      List.countP q
        (waitClusterReady env.clusterTicks env.ctxErr p.Managers p.Workers).2 = 0 :=
    fun q hq => countP_zero_of_all fun e he => by
      rw [waitClusterReady_events env.ctxErr p.Managers p.Workers env.clusterTicks e he]
      exact hq
  have hdclean : ∀ q s : Event → Bool, q Event.ping = false → s Event.ping = false →
      ∀ e ∈ (waitDaemonReady env.daemonTicks env.ctxErr).2, q e = false ∧ s e = false :=
    fun q s hq hs e he => by
      rw [waitDaemonReady_events env.ctxErr env.daemonTicks e he]; exact ⟨hq, hs⟩
  have hcclean : ∀ q s : Event → Bool, q Event.nodeList = false → s Event.nodeList = false →
      ∀ e ∈ (waitClusterReady env.clusterTicks env.ctxErr p.Managers p.Workers).2,
        q e = false ∧ s e = false :=
    fun q s hq hs e he => by
      rw [waitClusterReady_events env.ctxErr p.Managers p.Workers env.clusterTicks e he]
      exact ⟨hq, hs⟩
  have hjz : ∀ (jobs : List (String × List String)) (q : Event → Bool),
      (∀ cid cmd, q (Event.execCreate cid cmd) = false) →
      (∀ eid, q (Event.execStart eid) = false) →
      List.countP q (runAllExec env.exec jobs).2 = 0 :=
    fun jobs q hq1 hq2 => countP_zero_of_all fun e he => by
      rcases runAllExec_events env.exec jobs e he with ⟨cid, cmd, rfl⟩ | ⟨eid, rfl⟩
      · exact hq1 cid cmd
      · exact hq2 eid
  cases hscl : env.newSwarmClientErr with
  | some e => simp [swarmPhase, hscl, errE, noneUntil]
  | none =>
    simp only [swarmPhase, hscl]
    cases hd0 : (waitDaemonReady env.daemonTicks env.ctxErr).1 with
    | error er =>
      simp only [bindE, wrapE, hd0]
      refine ⟨by simp [hdz, isSwarmInitEv], by simp [hdz, isSwarmInspectEv], ?_, ?_, ?_⟩
      · rw [hdz isJoinExecEv (by rfl)]
        omega
      · exact noneUntil_of_no_p fun e he => by
          rw [waitDaemonReady_events env.ctxErr env.daemonTicks e he]; rfl
      · exact noneUntil_of_no_p fun e he => by
          rw [waitDaemonReady_events env.ctxErr env.daemonTicks e he]; rfl
    | ok u1 =>
      cases hi0 : env.swarmInitRes with
      | error er =>
        simp only [bindE, wrapE, hd0, hi0]
        refine ⟨?_, ?_, ?_, ?_, ?_⟩
        · simp [List.countP_append, hdz, isSwarmInitEv, List.countP_cons]
        · simp [List.countP_append, hdz, isSwarmInspectEv, List.countP_cons]
        · rw [List.countP_append, hdz isJoinExecEv (by rfl)]
          simp [List.countP_cons, isJoinExecEv]
        · exact noneUntil_of_no_p fun e he => by
            rcases List.mem_append.mp he with he | he
            · rw [waitDaemonReady_events env.ctxErr env.daemonTicks e he]; rfl
            · simp at he
              simp [he, isJoinExecEv]
        · exact noneUntil_of_no_p fun e he => by
            rcases List.mem_append.mp he with he | he
            · rw [waitDaemonReady_events env.ctxErr env.daemonTicks e he]; rfl
            · simp at he
              simp [he, isSwarmInspectEv]
      | ok u2 =>
        cases ht0 : env.swarmInspectRes with
        | error er =>
          simp only [bindE, wrapE, hd0, hi0, ht0]
          refine ⟨?_, ?_, ?_, ?_, ?_⟩
          · simp [List.countP_append, hdz, isSwarmInitEv, List.countP_cons]
          · simp [List.countP_append, hdz, isSwarmInspectEv, List.countP_cons]
          · rw [List.countP_append, hdz isJoinExecEv (by rfl)]
            simp [List.countP_cons, isJoinExecEv]
          · rw [noneUntil_append_clean (hdclean _ _ (by rfl) (by rfl)),
              List.singleton_append, noneUntil_cons_skip (by rfl) (by rfl),
              noneUntil_stop (by rfl)]
          · rw [noneUntil_append_clean (hdclean _ _ (by rfl) (by rfl)),
              List.singleton_append, noneUntil_stop (by rfl)]
        | ok toks =>
          cases hj0 : (runAllExec env.exec
              (prov.managerCIDs.map (fun cid => (cid,
                joinCmd toks.Manager (joinHostPort (prov.primaryCID.take 12) "2377"))) ++
               prov.workerCIDs.map (fun cid => (cid,
                joinCmd toks.Worker (joinHostPort (prov.primaryCID.take 12) "2377"))))).1 with
          | error er =>
            simp only [bindE, wrapE, hd0, hi0, ht0, hj0]
            refine ⟨?_, ?_, ?_, ?_, ?_⟩
            · simp [List.countP_append, hdz, isSwarmInitEv, List.countP_cons,
                hjz _ isSwarmInitEv (by intro cid cmd; rfl) (by intro eid; rfl)]
            · simp [List.countP_append, hdz, isSwarmInspectEv, List.countP_cons,
                hjz _ isSwarmInspectEv (by intro cid cmd; rfl) (by intro eid; rfl)]
            · intro h0
              refine ⟨?_, ?_, by simp [hd0]⟩
              · simp [List.countP_append, hdz, isSwarmInitEv, List.countP_cons,
                  hjz _ isSwarmInitEv (by intro cid cmd; rfl) (by intro eid; rfl)]
              · simp [List.countP_append, hdz, isSwarmInspectEv, List.countP_cons,
                  hjz _ isSwarmInspectEv (by intro cid cmd; rfl) (by intro eid; rfl)]
            · rw [noneUntil_append_clean (hdclean _ _ (by rfl) (by rfl)),
                List.singleton_append, noneUntil_cons_skip (by rfl) (by rfl),
                List.singleton_append, noneUntil_stop (by rfl)]
            · rw [noneUntil_append_clean (hdclean _ _ (by rfl) (by rfl)),
                List.singleton_append, noneUntil_stop (by rfl)]
          | ok u3 =>
            cases hc0 : (waitClusterReady env.clusterTicks env.ctxErr
                p.Managers p.Workers).1 with
            | error er =>
              simp only [bindE, wrapE, hd0, hi0, ht0, hj0, hc0]
              refine ⟨?_, ?_, ?_, ?_, ?_⟩
              · simp [List.countP_append, hdz, hcz, isSwarmInitEv, List.countP_cons,
                  hjz _ isSwarmInitEv (by intro cid cmd; rfl) (by intro eid; rfl)]
              · simp [List.countP_append, hdz, hcz, isSwarmInspectEv, List.countP_cons,
                  hjz _ isSwarmInspectEv (by intro cid cmd; rfl) (by intro eid; rfl)]
              · intro h0
                refine ⟨?_, ?_, by simp [hd0]⟩
                · simp [List.countP_append, hdz, hcz, isSwarmInitEv, List.countP_cons,
                    hjz _ isSwarmInitEv (by intro cid cmd; rfl) (by intro eid; rfl)]
                · simp [List.countP_append, hdz, hcz, isSwarmInspectEv, List.countP_cons,
                    hjz _ isSwarmInspectEv (by intro cid cmd; rfl) (by intro eid; rfl)]
              · rw [noneUntil_append_clean (hdclean _ _ (by rfl) (by rfl)),
                  List.singleton_append, noneUntil_cons_skip (by rfl) (by rfl),
                  List.singleton_append, noneUntil_stop (by rfl)]
              · rw [noneUntil_append_clean (hdclean _ _ (by rfl) (by rfl)),
                  List.singleton_append, noneUntil_stop (by rfl)]
            | ok u4 =>
              simp only [bindE, wrapE, hd0, hi0, ht0, hj0, hc0, retE]
              refine ⟨?_, ?_, ?_, ?_, ?_⟩
              · simp [List.countP_append, hdz, hcz, isSwarmInitEv, List.countP_cons,
                  hjz _ isSwarmInitEv (by intro cid cmd; rfl) (by intro eid; rfl)]
              · simp [List.countP_append, hdz, hcz, isSwarmInspectEv, List.countP_cons,
                  hjz _ isSwarmInspectEv (by intro cid cmd; rfl) (by intro eid; rfl)]
              · intro h0
                refine ⟨?_, ?_, by simp [hd0]⟩
                · simp [List.countP_append, hdz, hcz, isSwarmInitEv, List.countP_cons,
                    hjz _ isSwarmInitEv (by intro cid cmd; rfl) (by intro eid; rfl)]
                · simp [List.countP_append, hdz, hcz, isSwarmInspectEv, List.countP_cons,
                    hjz _ isSwarmInspectEv (by intro cid cmd; rfl) (by intro eid; rfl)]
              · rw [noneUntil_append_clean (hdclean _ _ (by rfl) (by rfl)),
                  List.singleton_append, noneUntil_cons_skip (by rfl) (by rfl),
                  List.singleton_append, noneUntil_stop (by rfl)]
              · rw [noneUntil_append_clean (hdclean _ _ (by rfl) (by rfl)),
                  List.singleton_append, noneUntil_stop (by rfl)]


/-- C7 counterexample: it is not the case that cluster initialization and
join-token retrieval execute exactly once in every (successful or failed)
`CreateCluster` run — a run rejected by validation issues neither call. -/
theorem createCluster_init_not_always_once_cex :
    ¬ (∀ (env : CreateEnv) (p : CreateClusterParams),
        List.countP isSwarmInitEv (CreateCluster env p).2 = 1 ∧
        List.countP isSwarmInspectEv (CreateCluster env p).2 = 1) := by
  intro h
  exact absurd (h okCreateEnv paramsInvalid).1 (by decide)

/-- C7 amended: in every `CreateCluster` run, cluster initialization and
join-token retrieval each execute at most once; whenever any join command
is dispatched they have each executed exactly once and the daemon
readiness wait succeeded; and no join command is ever issued before the
join-token retrieval, which itself never precedes initialization. -/
theorem createCluster_init_once_ordering (env : CreateEnv) (p : CreateClusterParams) :
    List.countP isSwarmInitEv (CreateCluster env p).2 ≤ 1 ∧
    List.countP isSwarmInspectEv (CreateCluster env p).2 ≤ 1 ∧
    (0 < List.countP isJoinExecEv (CreateCluster env p).2 →
      List.countP isSwarmInitEv (CreateCluster env p).2 = 1 ∧
      List.countP isSwarmInspectEv (CreateCluster env p).2 = 1 ∧
      (waitDaemonReady env.daemonTicks env.ctxErr).1 = Except.ok ()) ∧
    noneUntil isJoinExecEv isSwarmInspectEv (CreateCluster env p).2 = true ∧
    noneUntil isSwarmInspectEv isSwarmInitEv (CreateCluster env p).2 = true := by
  cases hval : validate p with
  | some e => simp [CreateCluster, hval, errE, noneUntil]
  | none =>
    cases hcli : env.newHostClientErr with
    | some e => simp [CreateCluster, hval, hcli, errE, noneUntil]
    | none =>
      simp only [CreateCluster, hval, hcli]
      have hz1 : List.countP isSwarmInitEv (provisionPhase env p).2 = 0 :=
        provision_count_zero env p _ (fun e he => (provisionEv_classifiers he).1)
      have hz2 : List.countP isSwarmInspectEv (provisionPhase env p).2 = 0 :=
        provision_count_zero env p _ (fun e he => (provisionEv_classifiers he).2.1)
      have hz3 : List.countP isJoinExecEv (provisionPhase env p).2 = 0 :=
        provision_count_zero env p _ (fun e he => (provisionEv_classifiers he).2.2.1)
      have hclean2 : ∀ e ∈ (provisionPhase env p).2,
          isJoinExecEv e = false ∧ isSwarmInspectEv e = false := fun e he => by
        have hcf := provisionEv_classifiers (provisionPhase_events env p e he)
        exact ⟨hcf.2.2.1, hcf.2.1⟩
      have hclean3 : ∀ e ∈ (provisionPhase env p).2,
          isSwarmInspectEv e = false ∧ isSwarmInitEv e = false := fun e he => by
        have hcf := provisionEv_classifiers (provisionPhase_events env p e he)
        exact ⟨hcf.2.1, hcf.1⟩
      cases hp0 : (provisionPhase env p).1 with
      | error er =>
        refine ⟨?_, ?_, ?_, ?_, ?_⟩
        · rw [bindE_snd_of_err hp0, hz1]
          omega
        · rw [bindE_snd_of_err hp0, hz2]
          omega
        · rw [bindE_snd_of_err hp0, hz3]
          omega
        · rw [bindE_snd_of_err hp0]
          exact noneUntil_of_no_p fun e he => (hclean2 e he).1
        · rw [bindE_snd_of_err hp0]
          exact noneUntil_of_no_p fun e he => (hclean3 e he).1
      | ok prov =>
        have hS := swarmPhase_order env p prov
        refine ⟨?_, ?_, ?_, ?_, ?_⟩
        · rw [bindE_snd_of_ok hp0, List.countP_append, hz1]
          have := hS.1
          omega
        · rw [bindE_snd_of_ok hp0, List.countP_append, hz2]
          have := hS.2.1
          omega
        · rw [bindE_snd_of_ok hp0]
          intro h0
          rw [List.countP_append, hz3] at h0
          obtain ⟨ha, hb, hc⟩ := hS.2.2.1 (by omega)
          refine ⟨?_, ?_, hc⟩
          · rw [List.countP_append, hz1]
            omega
          · rw [List.countP_append, hz2]
            omega
        · rw [bindE_snd_of_ok hp0, noneUntil_append_clean hclean2]
          exact hS.2.2.2.1
        · rw [bindE_snd_of_ok hp0, noneUntil_append_clean hclean3]
          exact hS.2.2.2.2

/-- C7 witness: in the successful 3-manager, 2-worker run, joins are
dispatched and initialization, token retrieval and daemon readiness behave
as the theorem states. -/
theorem createCluster_init_once_ordering_witness :
    0 < List.countP isJoinExecEv (CreateCluster okCreateEnv params32).2 ∧
    List.countP isSwarmInitEv (CreateCluster okCreateEnv params32).2 = 1 ∧
    List.countP isSwarmInspectEv (CreateCluster okCreateEnv params32).2 = 1 ∧
    (waitDaemonReady okCreateEnv.daemonTicks okCreateEnv.ctxErr).1 = Except.ok () ∧
    noneUntil isJoinExecEv isSwarmInspectEv (CreateCluster okCreateEnv params32).2 = true := by
  have h := createCluster_init_once_ordering okCreateEnv params32
  have hj : 0 < List.countP isJoinExecEv (CreateCluster okCreateEnv params32).2 := by decide
  obtain ⟨ha, hb, hc⟩ := h.2.2.1 hj
  exact ⟨hj, ha, hb, hc, h.2.2.2.1⟩


/-! ## C8, C9: PushImage ordering and cleanup -/

theorem prepareArchiveBody_snd (env : PushEnv) (refs : List String) (ip : String) :
    (prepareArchiveBody env refs ip).2 = [Event.imageSave refs] := by
  unfold prepareArchiveBody
  repeat' split
  all_goals rfl

theorem prepareArchive_no_load (env : PushEnv) (refs : List String) :
    List.countP isLoadExecEv (prepareArchive env refs).2 = 0 := by
  cases ht : env.tempImgFile with
  | error e => simp [prepareArchive, ht]
  | ok ip =>
    simp [prepareArchive, ht, prepareArchiveBody_snd, List.countP_cons, isLoadExecEv,
      List.countP_append]

theorem copyToContainer_events (env : PushEnv) (path cid : String) :
    ∀ e ∈ (copyToContainer env path cid).2, e = Event.copyToContainer cid path := by
  intro e he
  cases ho : env.openFileRes path with
  | some er => simp [copyToContainer, ho] at he
  | none =>
    cases hc : env.copyRes cid with
    | some er => simpa [copyToContainer, ho, hc] using he
    | none => simpa [copyToContainer, ho, hc] using he

theorem copyAll_events (env : PushEnv) (path : String) :
    ∀ (cids : List String), ∀ e ∈ (copyAll env path cids).2,
      ∃ cid, e = Event.copyToContainer cid path := by
  intro cids
  induction cids with
  | nil => intro e he; simp [copyAll, retE] at he
  | cons c t ih =>
    intro e he
    simp only [copyAll] at he
    rw [List.mem_append] at he
    rcases he with he | he
    · exact ⟨c, copyToContainer_events env path c e he⟩
    · exact ih e he

theorem copyAll_error_of_fail (env : PushEnv) (path : String) :
    ∀ (cids : List String), (∃ cid ∈ cids, env.copyRes cid ≠ none) →
      ∃ m, (copyAll env path cids).1 = Except.error m := by
  intro cids
  induction cids with
  | nil => intro h; simp at h
  | cons c t ih =>
    intro h
    simp only [copyAll]
    cases h1 : (copyToContainer env path c).1 with
    | error er => exact ⟨er, rfl⟩
    | ok u =>
      have hc : env.copyRes c = none := by
        cases ho : env.openFileRes path with
        | some er => simp [copyToContainer, ho] at h1
        | none =>
          cases hcc : env.copyRes c with
          | some er => simp [copyToContainer, ho, hcc] at h1
          | none => rfl
      rcases h with ⟨cid, hmem, hfail⟩
      rcases List.mem_cons.mp hmem with rfl | hmem2
      · exact absurd hc hfail
      · obtain ⟨m, hm⟩ := ih ⟨cid, hmem2, hfail⟩
        exact ⟨m, by rw [hm]⟩

theorem copyAll_ok_all (env : PushEnv) (path : String) :
    ∀ (cids : List String), (copyAll env path cids).1 = Except.ok () →
      ∀ cid ∈ cids, env.copyRes cid = none := by
  intro cids
  induction cids with
  | nil => intro _ cid hmem; simp at hmem
  | cons c t ih =>
    intro h cid hmem
    simp only [copyAll] at h
    cases h1 : (copyToContainer env path c).1 with
    | error er => rw [h1] at h; simp at h
    | ok u =>
      rw [h1] at h
      rcases List.mem_cons.mp hmem with rfl | hmem2
      · cases ho : env.openFileRes path with
        | some er => simp [copyToContainer, ho] at h1
        | none =>
          cases hcc : env.copyRes cid with
          | some er => simp [copyToContainer, ho, hcc] at h1
          | none => rfl
      · exact ih h cid hmem2

/-- C8: over any enumerated container list, `PushImage` dispatches its
`docker load` commands only when the archive copy succeeded into every
container, and whenever one of the copy tasks fails it returns an error
with zero load commands issued. -/
theorem pushImage_loads_only_after_all_copies (env : PushEnv) (refs : List String)
    (cids : List String) (hcl : env.containerListRes = Except.ok cids) :
    ((∃ cid ∈ cids, env.copyRes cid ≠ none) →
      (∃ m, (PushImage env refs).1 = Except.error m) ∧
      List.countP isLoadExecEv (PushImage env refs).2 = 0) ∧
    (0 < List.countP isLoadExecEv (PushImage env refs).2 →
      ∀ cid ∈ cids, env.copyRes cid = none) := by
  cases hhc : env.hostClientErr with
  | some e =>
    refine ⟨fun _ => ⟨⟨"unable to get host client: " ++ e,
      by simp [PushImage, hhc, errE]⟩, by simp [PushImage, hhc, errE]⟩, fun h0 => ?_⟩
    exfalso
    simp [PushImage, hhc, errE] at h0
  | none =>
    cases hp : (prepareArchive env refs).1 with
    | error er =>
      refine ⟨fun _ => ⟨⟨"unable to prepare the archive: " ++ er,
        by simp [PushImage, hhc, hp]⟩, ?_⟩, fun h0 => ?_⟩
      · simp only [PushImage, hhc, hp]
        exact prepareArchive_no_load env refs
      · exfalso
        rw [show List.countP isLoadExecEv (PushImage env refs).2 = 0 from by
          simp only [PushImage, hhc, hp]; exact prepareArchive_no_load env refs] at h0
        exact absurd h0 (by omega)
    | ok paths =>
      have hbody2 : (PushImage env refs).2 =
          (prepareArchive env refs).2 ++ (pushBody env paths.1 paths.2).2 ++
            [Event.removeFile paths.2] := by
        simp [PushImage, hhc, hp]
      have hbody1 : (PushImage env refs).1 = (pushBody env paths.1 paths.2).1 := by
        simp [PushImage, hhc, hp]
      cases hcp : (copyAll env paths.2 cids).1 with
      | error er =>
        have hb1 : (pushBody env paths.1 paths.2).1 =
            Except.error ("unable to deploy the image to host: " ++ er) := by
          simp [pushBody, hcl, hcp]
        have hb2 : (pushBody env paths.1 paths.2).2 =
            Event.containerList :: (copyAll env paths.2 cids).2 := by
          simp [pushBody, hcl, hcp]
        have hload0 : List.countP isLoadExecEv (PushImage env refs).2 = 0 := by
          rw [hbody2, hb2, List.countP_append, List.countP_append,
            prepareArchive_no_load, List.countP_cons]
          rw [countP_zero_of_all (fun e he => ?_)]
          · simp [isLoadExecEv]
          · obtain ⟨cid, rfl⟩ := copyAll_events env paths.2 cids e he
            rfl
        refine ⟨fun _ => ⟨⟨_, by rw [hbody1, hb1]⟩, hload0⟩, fun h0 => ?_⟩
        exfalso
        rw [hload0] at h0
        exact absurd h0 (by omega)
      | ok u =>
        cases u
        have hall := copyAll_ok_all env paths.2 cids hcp
        refine ⟨fun hfail => ?_, fun _ => hall⟩
        exfalso
        obtain ⟨cid, hmem, hne⟩ := hfail
        exact hne (hall cid hmem)

/-- C9: once the archive has been prepared, the local temporary archive
file is removed on every exit path of `PushImage` — it is the final
action before returning, whether the run succeeded or a copy or load
failed. -/
theorem pushImage_removes_archive (env : PushEnv) (refs : List String)
    (ipath apath : String)
    (hclient : env.hostClientErr = none)
    (hprep : (prepareArchive env refs).1 = Except.ok (ipath, apath)) :
    Event.removeFile apath ∈ (PushImage env refs).2 ∧
    (PushImage env refs).2.getLast? = some (Event.removeFile apath) := by
  have htr : (PushImage env refs).2 =
      ((prepareArchive env refs).2 ++ (pushBody env ipath apath).2) ++
        [Event.removeFile apath] := by
    simp [PushImage, hclient, hprep]
  rw [htr]
  constructor
  · simp
  · rw [List.getLast?_concat]

/-- C9 witness: the all-success push over three containers removes the
prepared archive last. -/
theorem pushImage_removes_archive_witness :
    okPushEnv.hostClientErr = none ∧
    (prepareArchive okPushEnv ["img"]).1 = Except.ok ("/img_sind1", "/tmp/tar_img_sind1") ∧
    Event.removeFile "/tmp/tar_img_sind1" ∈ (PushImage okPushEnv ["img"]).2 ∧
    (PushImage okPushEnv ["img"]).2.getLast? =
      some (Event.removeFile "/tmp/tar_img_sind1") := by
  have h := pushImage_removes_archive okPushEnv ["img"] "/img_sind1" "/tmp/tar_img_sind1"
    (by rfl) (by rfl)
  exact ⟨by rfl, by rfl, h.1, h.2⟩

/-- C8 witness: with the copy into container `c2` failing, the push
reports an error and dispatches no load command. -/
theorem pushImage_loads_only_after_all_copies_witness :
    copyFailPushEnv.containerListRes = Except.ok ["c1", "c2", "c3"] ∧
    (∃ cid ∈ ["c1", "c2", "c3"], copyFailPushEnv.copyRes cid ≠ none) ∧
    (∃ m, (PushImage copyFailPushEnv ["img"]).1 = Except.error m) ∧
    List.countP isLoadExecEv (PushImage copyFailPushEnv ["img"]).2 = 0 := by
  have h := (pushImage_loads_only_after_all_copies copyFailPushEnv ["img"]
    ["c1", "c2", "c3"] (by rfl)).1 ⟨"c2", by decide, by decide⟩
  exact ⟨by rfl, ⟨"c2", by decide, by decide⟩, h.1, h.2⟩

/-! ## C10: a failed image-list query forces a pull -/

theorem pullStep_snd (env : CreateEnv) (img : String) :
    (pullStep env img).2 = [Event.imagePull img] := by
  cases hp : env.imagePullRes with
  | error er => simp [pullStep, hp]
  | ok _ =>
    cases hd : env.pullDrainRes with
    | error er => simp [pullStep, hp, hd]
    | ok _ => simp [pullStep, hp, hd]

/-- C10: when the image-list query fails, the presence check reports the
image as absent, and `CreateCluster` therefore issues an image pull even
though `PullImage` was not requested. -/
theorem imageList_failure_triggers_pull (env : CreateEnv) (p : CreateClusterParams)
    (e : String) (hval : validate p = none) (hcli : env.newHostClientErr = none)
    (hlist : env.imageListRes = Except.error e) (hpl : p.PullImage = false) :
    (imageAlreadyExist env (imageNameOf p)).1 = false ∧
    Event.imagePull (imageNameOf p) ∈ (CreateCluster env p).2 := by
  have hfalse : (imageAlreadyExist env (imageNameOf p)).1 = false := by
    simp [imageAlreadyExist, hlist]
  refine ⟨hfalse, ?_⟩
  simp only [CreateCluster, hval, hcli]
  obtain ⟨t0, ht0⟩ := bindE_snd_prefix (provisionPhase env p)
    (fun prov => swarmPhase env p prov)
  rw [ht0, List.mem_append]
  left
  simp only [provisionPhase]
  rw [bindE_snd_of_ok (show ((Except.ok (),
    (imageAlreadyExist env (imageNameOf p)).2) : TraceM Unit).1 = Except.ok () from rfl)]
  rw [List.mem_append]
  right
  rw [show (if p.PullImage || !(imageAlreadyExist env (imageNameOf p)).1
      then pullStep env (imageNameOf p) else retE ()) = pullStep env (imageNameOf p) from by
    rw [hpl, hfalse]
    rfl]
  obtain ⟨t2, ht2⟩ := bindE_snd_prefix (pullStep env (imageNameOf p)) _
  rw [ht2, pullStep_snd, List.mem_append]
  left
  simp

/-- C10 witness: the oracle whose image-list query fails makes the
3-manager run pull the default image despite `PullImage := false`. -/
theorem imageList_failure_triggers_pull_witness :
    validate params32 = none ∧
    listFailEnv.newHostClientErr = none ∧
    listFailEnv.imageListRes = Except.error "docker daemon unavailable" ∧
    params32.PullImage = false ∧
    (imageAlreadyExist listFailEnv (imageNameOf params32)).1 = false ∧
    Event.imagePull (imageNameOf params32) ∈ (CreateCluster listFailEnv params32).2 := by
  have h := imageList_failure_triggers_pull listFailEnv params32 "docker daemon unavailable"
    (by rfl) (by rfl) (by rfl) (by rfl)
  exact ⟨by rfl, by rfl, by rfl, by rfl, h.1, h.2⟩

end Sind
